import Mathlib

/-!
Verification of the Angular Ivy runtime and compiler metadata pipeline
(shallow embedding of `packages/core/src/render3/instructions/listener.ts`,
the render3 provider resolver, `ViewContainerRef` (render3 implementation),
`ngtsc/annotations/common/src/di.ts`, `ngtsc/annotations/directive/src/shared.ts`
and the `NgModuleDecoratorHandler` remote-scoping logic).

Machinery that the embedded functions call but that lives outside the
embedded files (DOM manipulation helpers, array utilities) is modelled from
the specification; each such definition carries a doc comment saying so.
-/

namespace Ng

/-! ### Listener dispatch (`listener.ts`: `executeListenerWithErrorHandling`, `wrapListener`) -/

/-- A JavaScript value as far as listener dispatch is concerned: the dispatch
logic only distinguishes the literal `false` from every other value, because
the only test performed on a listener result is `listenerFn(e) !== false`. -/
inductive JsValue where
  | jsFalse
  | other (v : Nat)
deriving DecidableEq, Repr

/-- Outcome of invoking a JavaScript listener function on an event: either a
returned value or a thrown exception (exceptions are carried as numeric codes). -/
inductive JsOutcome where
  | ret (v : JsValue)
  | exn (err : Nat)
deriving DecidableEq, Repr

/-- A listener handler function: events are coded as naturals. -/
abbrev ListenerFn : Type := Nat → JsOutcome

/-- Observable side effects of a dispatch: the errors routed to `handleError`,
and the number of handler invocations (each invocation is bracketed by the
`ProfilerEvent.OutputStart` / `OutputEnd` profiler events in the source, which
is what `invocations` counts). -/
structure DispatchState where
  errors : List Nat
  invocations : Nat
deriving DecidableEq, Repr

/-- Embedding of `executeListenerWithErrorHandling`: invoke the handler;
a returned value yields `result !== false`; a thrown exception is routed to
`handleError` (recorded in `errors`) and yields `false`. -/
def executeListenerWithErrorHandling (st : DispatchState) (listenerFn : ListenerFn)
    (e : Nat) : Bool × DispatchState :=
  match listenerFn e with
  | JsOutcome.ret v =>
      (match v with
       | JsValue.jsFalse => false
       | JsValue.other _ => true,
       { st with invocations := st.invocations + 1 })
  | JsOutcome.exn err =>
      (false, { errors := st.errors ++ [err], invocations := st.invocations + 1 })

/-- The `while (nextListenerFn)` loop of `wrapListenerIn_markDirtyAndPreventDefault`:
each coalesced handler is executed (with error handling) and the dispatch result
is `executeListenerWithErrorHandling(...) && result`. -/
def dispatchChain (st : DispatchState) (result : Bool) (rest : List ListenerFn)
    (e : Nat) : Bool × DispatchState :=
  match rest with
  | [] => (result, st)
  | f :: fs =>
      let p := executeListenerWithErrorHandling st f e
      dispatchChain p.2 (p.1 && result) fs e

/-- Embedding of the dispatch performed by the closure returned from
`wrapListener` (the `e === Function` unwrapping case and `markViewDirty` are
outside the dispatch result): the first registered handler runs first, then the
chain of handlers linked through `__ngNextListenerFn__`. -/
def wrapListenerDispatch (chain : List ListenerFn) (e : Nat) : Bool × DispatchState :=
  match chain with
  | [] => (true, { errors := [], invocations := 0 })
  | f :: fs =>
      let p := executeListenerWithErrorHandling { errors := [], invocations := 0 } f e
      dispatchChain p.2 p.1 fs e

/-- Embedding of the `wrapWithPreventDefault && result === false` guard at the
end of the wrapped listener: whether `preventDefault` is invoked. -/
def appliesPreventDefault (wrapWithPreventDefault : Bool) (result : Bool) : Bool :=
  wrapWithPreventDefault && !result

/-- A handler that immediately returns the literal `false`. -/
def constFalseListener : ListenerFn := fun _ => JsOutcome.ret JsValue.jsFalse

/-- A concrete handler returning a non-`false` value (used by the C10 witness). -/
def okListener (v : Nat) : ListenerFn := fun _ => JsOutcome.ret (JsValue.other v)

/-- A concrete handler that always throws (used by the C10 witness). -/
def throwingListener (err : Nat) : ListenerFn := fun _ => JsOutcome.exn err

/-! ### Render3 provider resolution (`resolveProvider` and the multi-provider
factories, second section of `listener.ts`'s source file group)

Tokens and provider values are coded as naturals; a provider factory function
is pure in this embedding, so it is represented by the value it produces.
`diPublicInInjector` (bloom-filter registration), `registerDestroyHooksIfSupported`
(ngOnDestroy bookkeeping) and the parallel `lView` push (identical to the
blueprint push on the first create pass) do not affect resolution results and
are not modelled. `resolveForwardRef` is the identity on already-resolved
providers, which is what the model's providers are. -/

/-- Which factory function a `NodeInjectorFactory` carries: the plain provider
factory, `multiProvidersFactoryResolver`, or `multiViewProvidersFactoryResolver`. -/
inductive FactoryResolver where
  | singleR
  | multiProvidersR
  | multiViewProvidersR
deriving DecidableEq, Repr

/-- Embedding of `NodeInjectorFactory` (the fields used by provider
resolution). The `providerFactory` link to the provider-level multi factory is
stored through that factory's `index`, mirroring the source's use of
`this.providerFactory!.index!` at resolution time. -/
structure NodeInjectorFactory where
  resolver : FactoryResolver
  factoryValue : Nat
  isViewProvider : Bool
  multi : List Nat
  componentProviders : Nat
  providerFactoryIdx : Option Nat
  index : Nat
deriving DecidableEq, Repr

/-- A `Provider`: either a single provider (a type provider or an object with
`provide`/`multi`) or a nested provider array. -/
inductive ProviderM where
  | single (token : Nat) (value : Nat) (multi : Bool)
  | group (ps : List ProviderM)
deriving Repr

/-- The per-node provider state threaded through `resolveProvider`:
`tInjectables` is the token section of `TView.data`, `blueprint` the aligned
`NodeInjectorFactory` section, and the remaining fields are the `TNode`
bookkeeping (`providerIndexes` start mask, `CptViewProvidersCount` shift count,
`directiveStart`, `directiveEnd`). -/
structure PState where
  tInjectables : List Nat
  blueprint : List NodeInjectorFactory
  providersStart : Nat
  cptViewProvidersCount : Nat
  directiveStart : Nat
  directiveEnd : Nat
deriving DecidableEq, Repr

/-- The loop of `indexOf(item, arr, begin, end)`, with the remaining range
width `e - b` made explicit as a structurally decreasing argument. -/
def indexOfAux (item : Nat) (arr : List Nat) (b : Nat) : Nat → Int
  | 0 => -1
  | fuel + 1 =>
      if arr.get? b = some item then (b : Int) else indexOfAux item arr (b + 1) fuel

/-- Embedding of `indexOf(item, arr, begin, end)`: index of `item` in `arr`
restricted to the range `[b, e)`, or `-1`. -/
def indexOf (item : Nat) (arr : List Nat) (b e : Nat) : Int :=
  indexOfAux item arr b (e - b)

/-- Embedding of `multiFactoryAdd`: adds a contributor factory to a multi
factory, bumping `componentProviders` when the contributor is a component-level
provider, and returns the index at which the factory was inserted. -/
def multiFactoryAdd (mf : NodeInjectorFactory) (factoryValue : Nat)
    (isComponentProvider : Bool) : NodeInjectorFactory × Nat :=
  let mf1 := if isComponentProvider then
    { mf with componentProviders := mf.componentProviders + 1 } else mf
  ({ mf1 with multi := mf1.multi ++ [factoryValue] }, mf1.multi.length)

/-- Embedding of `multiFactory`: creates a multi factory seeded with one
contributor. -/
def multiFactory (resolver : FactoryResolver) (index : Nat)
    (isViewProvider isComponent : Bool) (factoryValue : Nat) : NodeInjectorFactory :=
  let factory : NodeInjectorFactory :=
    { resolver := resolver, factoryValue := factoryValue,
      isViewProvider := isViewProvider, multi := [], componentProviders := 0,
      providerFactoryIdx := none, index := index }
  (multiFactoryAdd factory factoryValue (isComponent && !isViewProvider)).1

/-- Updates the blueprint entry at `i` in place (the source mutates
`lInjectablesBlueprint[i]`). -/
def setFactoryAt (bp : List NodeInjectorFactory) (i : Nat)
    (g : NodeInjectorFactory → NodeInjectorFactory) : List NodeInjectorFactory :=
  match bp.get? i with
  | some f => bp.set i (g f)
  | none => bp

/-- Embedding of the non-array branch of `resolveProvider` for one provider
with token `tok`, factory value `value` and multi flag `isMulti`. -/
def resolveProviderSingle (tok value : Nat) (isMulti : Bool)
    (isComponent isViewProvider : Bool) (st : PState) : PState :=
  let beginIndex := st.providersStart
  let endIndex := st.directiveStart
  let cptViewProvidersCount := st.cptViewProvidersCount
  if !isMulti then
    let factory : NodeInjectorFactory :=
      { resolver := FactoryResolver.singleR, factoryValue := value,
        isViewProvider := isViewProvider, multi := [], componentProviders := 0,
        providerFactoryIdx := none, index := 0 }
    let existingFactoryIndex := indexOf tok st.tInjectables
      (if isViewProvider then beginIndex else beginIndex + cptViewProvidersCount) endIndex
    if existingFactoryIndex = -1 then
      { st with
        tInjectables := st.tInjectables ++ [tok],
        blueprint := st.blueprint ++ [factory],
        directiveStart := st.directiveStart + 1,
        directiveEnd := st.directiveEnd + 1,
        cptViewProvidersCount :=
          if isViewProvider then cptViewProvidersCount + 1 else cptViewProvidersCount }
    else
      { st with blueprint := st.blueprint.set existingFactoryIndex.toNat factory }
  else
    let existingProvidersFactoryIndex :=
      indexOf tok st.tInjectables (beginIndex + cptViewProvidersCount) endIndex
    let existingViewProvidersFactoryIndex :=
      indexOf tok st.tInjectables beginIndex (beginIndex + cptViewProvidersCount)
    let doesProvidersFactoryExist := decide (0 ≤ existingProvidersFactoryIndex)
    let doesViewProvidersFactoryExist := decide (0 ≤ existingViewProvidersFactoryIndex)
    let st1 :=
      if (isViewProvider && !doesViewProvidersFactoryExist) ||
          (!isViewProvider && !doesProvidersFactoryExist) then
        let factory := multiFactory
          (if isViewProvider then FactoryResolver.multiViewProvidersR
            else FactoryResolver.multiProvidersR)
          st.blueprint.length isViewProvider isComponent value
        let bp1 :=
          if !isViewProvider && doesViewProvidersFactoryExist then
            setFactoryAt st.blueprint existingViewProvidersFactoryIndex.toNat
              (fun f => { f with providerFactoryIdx := some factory.index })
          else st.blueprint
        { st with
          tInjectables := st.tInjectables ++ [tok],
          blueprint := bp1 ++ [factory],
          directiveStart := st.directiveStart + 1,
          directiveEnd := st.directiveEnd + 1,
          cptViewProvidersCount :=
            if isViewProvider then cptViewProvidersCount + 1 else cptViewProvidersCount }
      else
        let idx := (if isViewProvider then existingViewProvidersFactoryIndex
          else existingProvidersFactoryIndex).toNat
        { st with
          blueprint := setFactoryAt st.blueprint idx
            (fun f => (multiFactoryAdd f value (!isViewProvider && isComponent)).1) }
    if !isViewProvider && isComponent && doesViewProvidersFactoryExist then
      { st1 with
        blueprint := setFactoryAt st1.blueprint existingViewProvidersFactoryIndex.toNat
          (fun f => { f with componentProviders := f.componentProviders + 1 }) }
    else st1

mutual

/-- Embedding of `resolveProvider`: an array of providers is processed
recursively; a single provider is handled by `resolveProviderSingle`. -/
def resolveProvider (p : ProviderM) (isComponent isViewProvider : Bool)
    (st : PState) : PState :=
  match p with
  | ProviderM.single tok value m =>
      resolveProviderSingle tok value m isComponent isViewProvider st
  | ProviderM.group ps => resolveProviderList ps isComponent isViewProvider st

/-- The `for` loop of `resolveProvider` over a provider array. -/
def resolveProviderList (ps : List ProviderM) (isComponent isViewProvider : Bool)
    (st : PState) : PState :=
  match ps with
  | [] => st
  | p :: rest =>
      resolveProviderList rest isComponent isViewProvider
        (resolveProvider p isComponent isViewProvider st)

end

/-- Embedding of `providersResolver`: the view providers are processed first,
then the providers. -/
def providersResolver (isComponent : Bool)
    (providers viewProviders : List ProviderM) (st : PState) : PState :=
  let st1 := resolveProvider (ProviderM.group viewProviders) isComponent true st
  resolveProvider (ProviderM.group providers) isComponent false st1

/-- Embedding of `multiResolve`: maps an array of (pure) factories onto the
result array by pushing each produced value. -/
def multiResolve (factories : List Nat) (result : List Nat) : List Nat :=
  factories.foldl (fun acc f => acc ++ [f]) result

/-- Embedding of `multiProvidersFactoryResolver`. -/
def multiProvidersFactoryResolver (f : NodeInjectorFactory) : List Nat :=
  multiResolve f.multi []

/-- Embedding of `multiViewProvidersFactoryResolver`: when the view-provider
factory is linked to a provider-level factory, the provider-level factory is
resolved (the `getNodeInjectable` call on `this.providerFactory!.index!`, whose
factory function is `multiProvidersFactoryResolver`), the section of component
`multi` providers is copied first, the `viewProvider` instances are inserted,
and the `multi` providers from other directives are copied last. -/
def multiViewProvidersFactoryResolver (st : PState) (f : NodeInjectorFactory) : List Nat :=
  match f.providerFactoryIdx with
  | some pIdx =>
      match st.blueprint.get? pIdx with
      | some pf =>
          let componentCount := pf.componentProviders
          let multiProviders := multiProvidersFactoryResolver pf
          let result := multiProviders.take componentCount
          let result1 := multiResolve f.multi result
          result1 ++ multiProviders.drop componentCount
      | none => multiResolve f.multi []
  | none => multiResolve f.multi []

/-- Value produced by running a node-injector factory (`getNodeInjectable`
restricted to running the factory function, which is all the multi-provider
claims need). -/
def runNodeInjectorFactory (st : PState) (f : NodeInjectorFactory) : List Nat :=
  match f.resolver with
  | FactoryResolver.singleR => [f.factoryValue]
  | FactoryResolver.multiProvidersR => multiProvidersFactoryResolver f
  | FactoryResolver.multiViewProvidersR => multiViewProvidersFactoryResolver st f

/-- A token lookup issued from inside the component's view scans the node's
injectables from the start of the provider section, in which the view-provider
block comes before the provider block (the source keeps view providers "always
in the first block of the injectables array ... because view providers have
higher priority"), and runs the factory found first. -/
def lookupFromView (st : PState) (tok : Nat) : Option (List Nat) :=
  let i := indexOf tok st.tInjectables st.providersStart st.directiveEnd
  if i = -1 then none
  else (st.blueprint.get? i.toNat).map (runNodeInjectorFactory st)

/-- The empty per-node provider state (provider section starts at slot 0). -/
def pstate0 : PState :=
  { tInjectables := [], blueprint := [], providersStart := 0,
    cptViewProvidersCount := 0, directiveStart := 0, directiveEnd := 0 }

/-- The C1 scenario: a component contributing to multi-token `7` from both its
`viewProviders` (value `xv`) and its `providers` (value `xc`). -/
def c1State (xv xc : Nat) : PState :=
  providersResolver true [ProviderM.single 7 xc true] [ProviderM.single 7 xv true] pstate0

/-! ### ngtsc constructor dependency extraction (`annotations/common/src/di.ts`)

Injection tokens and decorator argument expressions are coded as naturals.
The reflection host and partial evaluator are collaborators outside the
embedded file; a class declaration is therefore represented by what the
embedded code reads off them: its name, its constructor parameters (or `null`
when it declares no constructor of its own), and whether it has a base class. -/

/-- The ngtsc diagnostic codes raised by the embedded functions. -/
inductive ErrorCode where
  | DECORATOR_ARITY_WRONG
  | DECORATOR_UNEXPECTED
  | PARAM_MISSING_TOKEN
deriving DecidableEq, Repr

/-- A fatal compiler diagnostic (`FatalDiagnosticError`); the related
information chain and hints are collapsed into the message. -/
structure FatalDiagnosticError where
  code : ErrorCode
  message : String
deriving DecidableEq, Repr

/-- Embedding of `ValueUnavailableKind`: why a parameter type has no usable
injection token. -/
inductive ValueUnavailableKind where
  | unsupported
  | noValueDeclaration
  | typeOnlyImport
  | namespaceImport
  | unknownReference
  | missingType
deriving DecidableEq, Repr

/-- A parameter decorator as `getConstructorDependencies` reads it (already
filtered to Angular-core decorators, and identified by name). The
string-literal versus dynamic distinction of `@Attribute`'s argument only
affects `attributeNameType`, which is modelled as the argument itself. -/
inductive ParamDecorator where
  | inject (args : List Nat)
  | optional
  | skipSelf
  | self
  | host
  | attribute (args : List Nat)
  | unexpected (name : String)
deriving DecidableEq, Repr

/-- Embedding of `CtorParameter` (name, resolved type token or `null` together
with the reason it is unavailable, and parameter decorators). -/
structure CtorParameter where
  name : String
  typeToken : Option Nat
  reason : ValueUnavailableKind
  decorators : List ParamDecorator
deriving DecidableEq, Repr

/-- Embedding of `R3DependencyMetadata` for one constructor dependency. -/
structure R3DependencyMetadata where
  token : Nat
  attributeNameType : Option Nat
  optional : Bool
  self : Bool
  skipSelf : Bool
  host : Bool
deriving DecidableEq, Repr

/-- Embedding of `ConstructorDepError`. -/
structure ConstructorDepError where
  index : Nat
  paramName : String
  reason : ValueUnavailableKind
deriving DecidableEq, Repr

/-- Embedding of `ConstructorDeps`: either valid dependencies or a non-empty
list of typed errors. -/
inductive ConstructorDeps where
  | valid (deps : List R3DependencyMetadata)
  | invalid (errors : List ConstructorDepError)
deriving DecidableEq, Repr

/-- Embedding of `ClassDeclaration` as read through the reflection host:
`ctorParams` is `reflector.getConstructorParameters(clazz)` and `hasBaseClass`
is `reflector.hasBaseClass(clazz)`. -/
structure ClassDeclaration where
  name : String
  ctorParams : Option (List CtorParameter)
  hasBaseClass : Bool
deriving DecidableEq, Repr

/-- The mutable per-parameter state of `getConstructorDependencies`'s
decorator loop (`token`, `attributeNameType` and the four flags). -/
structure DepFlags where
  token : Option Nat
  attributeNameType : Option Nat
  optional : Bool
  self : Bool
  skipSelf : Bool
  host : Bool
deriving DecidableEq, Repr

/-- One iteration of the decorator loop of `getConstructorDependencies`:
`@Inject(x)` replaces the token (wrong arity is a fatal diagnostic),
`@Optional`/`@SkipSelf`/`@Self`/`@Host` set flags, `@Attribute(name)` replaces
the token with the attribute name and records the attribute-name type, and any
other decorator is a fatal diagnostic. -/
def applyParamDecorator (acc : DepFlags) (dec : ParamDecorator) :
    Except FatalDiagnosticError DepFlags :=
  match dec with
  | ParamDecorator.inject args =>
      match args with
      | [a] => Except.ok { acc with token := some a }
      | _ => Except.error
          { code := ErrorCode.DECORATOR_ARITY_WRONG,
            message := "Unexpected number of arguments to @Inject()." }
  | ParamDecorator.optional => Except.ok { acc with optional := true }
  | ParamDecorator.skipSelf => Except.ok { acc with skipSelf := true }
  | ParamDecorator.self => Except.ok { acc with self := true }
  | ParamDecorator.host => Except.ok { acc with host := true }
  | ParamDecorator.attribute args =>
      match args with
      | [a] => Except.ok { acc with token := some a, attributeNameType := some a }
      | _ => Except.error
          { code := ErrorCode.DECORATOR_ARITY_WRONG,
            message := "Unexpected number of arguments to @Attribute()." }
  | ParamDecorator.unexpected nm =>
      Except.error
        { code := ErrorCode.DECORATOR_UNEXPECTED,
          message := "Unexpected decorator " ++ nm ++ " on parameter." }

/-- The `ctorParams.forEach((param, idx) => ...)` loop: resolves each
parameter's token and flags, pushing a dependency when a token was found and a
typed error otherwise. -/
def collectCtorDeps (ps : List CtorParameter) (idx : Nat)
    (deps : List R3DependencyMetadata) (errors : List ConstructorDepError) :
    Except FatalDiagnosticError (List R3DependencyMetadata × List ConstructorDepError) :=
  match ps with
  | [] => Except.ok (deps, errors)
  | p :: rest => do
      let flags ← p.decorators.foldlM applyParamDecorator
        { token := p.typeToken, attributeNameType := none,
          optional := false, self := false, skipSelf := false, host := false }
      match flags.token with
      | none =>
          collectCtorDeps rest (idx + 1) deps
            (errors ++ [{ index := idx, paramName := p.name, reason := p.reason }])
      | some tok =>
          collectCtorDeps rest (idx + 1)
            (deps ++
              [{ token := tok, attributeNameType := flags.attributeNameType,
                 optional := flags.optional, self := flags.self,
                 skipSelf := flags.skipSelf, host := flags.host }]) errors

/-- Embedding of `getConstructorDependencies`: `null` constructor parameters
with a base class defer to the base class (`null` result); otherwise the
parameters (an empty list when there is no constructor and no base class) are
processed, yielding valid deps when no error was recorded and the error list
otherwise. -/
def getConstructorDependencies (clazz : ClassDeclaration) :
    Except FatalDiagnosticError (Option ConstructorDeps) := do
  let processed :=
    match clazz.ctorParams with
    | none => if clazz.hasBaseClass then none else some []
    | some ps => some ps
  match processed with
  | none => pure none
  | some ps =>
      let r ← collectCtorDeps ps 0 [] []
      if r.2.length = 0 then pure (some (ConstructorDeps.valid r.1))
      else pure (some (ConstructorDeps.invalid r.2))

/-- Embedding of `createUnsuitableInjectionTokenError` (the per-reason hint
chain is collapsed; the leading message names the offending parameter by name,
or by index when the name is empty, exactly as `${param.name || index}` does). -/
def createUnsuitableInjectionTokenError (clazz : ClassDeclaration)
    (e : ConstructorDepError) : FatalDiagnosticError :=
  { code := ErrorCode.PARAM_MISSING_TOKEN,
    message := "No suitable injection token for parameter \x27" ++
      (if e.paramName = "" then toString e.index else e.paramName) ++
      "\x27 of class \x27" ++ clazz.name ++ "\x27." }

/-- Result of `unwrapConstructorDependencies`: the deps, the literal
`'invalid'` signal, or `null`. -/
inductive DepsOrInvalid where
  | deps (l : List R3DependencyMetadata)
  | invalid
deriving DecidableEq, Repr

/-- Embedding of `unwrapConstructorDependencies`: accepts invalid deps,
converting them into the `'invalid'` signal. -/
def unwrapConstructorDependencies (deps : Option ConstructorDeps) :
    Option DepsOrInvalid :=
  match deps with
  | none => none
  | some (ConstructorDeps.valid l) => some (DepsOrInvalid.deps l)
  | some (ConstructorDeps.invalid _) => some DepsOrInvalid.invalid

/-- Embedding of `validateConstructorDependencies`: raises the first recorded
error as a fatal diagnostic. The `[]` case is unreachable because
`getConstructorDependencies` only builds `invalid` from a non-empty error
list; it is mapped to a placeholder error at index 0. -/
def validateConstructorDependencies (clazz : ClassDeclaration)
    (deps : Option ConstructorDeps) :
    Except FatalDiagnosticError (Option (List R3DependencyMetadata)) :=
  match deps with
  | none => Except.ok none
  | some (ConstructorDeps.valid l) => Except.ok (some l)
  | some (ConstructorDeps.invalid errors) =>
      Except.error (createUnsuitableInjectionTokenError clazz
        (errors.headD
          { index := 0, paramName := "",
            reason := ValueUnavailableKind.missingType }))

/-- Constructor-dependency outcome of `extractDirectiveMetadata` (`ctorDeps`):
valid deps, the tolerated `'invalid'` signal, or `null` (inherit from base). -/
inductive CtorDepsResolution where
  | deps (l : List R3DependencyMetadata)
  | invalid
  | inherited
deriving DecidableEq, Repr

/-- Embedding of the constructor-dependency slice of
`extractDirectiveMetadata` (`shared.ts` lines 162-168): non-abstract
directives (resolved selector non-null) validate the raw deps, whereas
abstract directives (null selector) merely unwrap them, tolerating invalid
deps. -/
def extractCtorDeps (selector : Option String) (clazz : ClassDeclaration) :
    Except FatalDiagnosticError CtorDepsResolution := do
  let rawCtorDeps ← getConstructorDependencies clazz
  if selector ≠ none then
    match ← validateConstructorDependencies clazz rawCtorDeps with
    | none => pure CtorDepsResolution.inherited
    | some l => pure (CtorDepsResolution.deps l)
  else
    match unwrapConstructorDependencies rawCtorDeps with
    | none => pure CtorDepsResolution.inherited
    | some (DepsOrInvalid.deps l) => pure (CtorDepsResolution.deps l)
    | some DepsOrInvalid.invalid => pure CtorDepsResolution.invalid

/-- The concrete class used by the C5 witness: one constructor parameter whose
type has no resolvable injection token and no parameter decorators. -/
def c5Class : ClassDeclaration :=
  { name := "Dir",
    ctorParams := some
      [{ name := "dep", typeToken := none,
         reason := ValueUnavailableKind.unknownReference, decorators := [] }],
    hasBaseClass := false }

/-! ### Directive input/output map construction (`shared.ts`)

JavaScript object literals with string keys are modelled as association lists
without duplicate keys; `results[field] = value` replaces the binding in place
when `field` is already bound and appends it otherwise. -/

/-- JS object assignment `m[k] = v`. -/
def objSet {α : Type} (m : List (String × α)) (k : String) (v : α) :
    List (String × α) :=
  match m with
  | [] => [(k, v)]
  | kv :: rest => if kv.1 = k then (k, v) :: rest else kv :: objSet rest k v

/-- JS object read `m[k]` (first binding). -/
def objGet {α : Type} (m : List (String × α)) (k : String) : Option α :=
  match m with
  | [] => none
  | kv :: rest => if kv.1 = k then some kv.2 else objGet rest k

/-- The value of the last-applied declaration for key `k` in `m`. -/
def objGetLast {α : Type} (m : List (String × α)) (k : String) : Option α :=
  match m with
  | [] => none
  | kv :: rest =>
      (objGetLast rest k).orElse (fun _ => if kv.1 = k then some kv.2 else none)

/-- Splits a character list on a separator (the segments of JavaScript
`String.prototype.split`). -/
def splitCharsOn (sep : Char) : List Char → List (List Char)
  | [] => [[]]
  | c :: rest =>
      let r := splitCharsOn sep rest
      if c = sep then [] :: r
      else
        match r with
        | [] => [[c]]
        | g :: gs => (c :: g) :: gs

/-- JavaScript `value.split(sep)` as a structurally recursive string function. -/
def jsSplit (sep : Char) (s : String) : List String :=
  (splitCharsOn sep s.toList).map (fun cs => String.mk cs)

/-- JavaScript `String.prototype.trim` (strip leading and trailing whitespace),
structurally recursive. -/
def jsTrim (s : String) : String :=
  String.mk (((s.toList.dropWhile Char.isWhitespace).reverse.dropWhile
    Char.isWhitespace).reverse)

/-- Embedding of `parseInputOutputMappingArray`: each entry is `"field"` or
`"field: property"`; `value.split(':', 2)` keeps at most the first two
segments, both trimmed, and an absent or empty property falls back to the
field name (`property || field`). -/
def parseInputOutputMappingArray (values : List String) : List (String × String) :=
  values.foldl (fun results value =>
    let parts := ((jsSplit ':' value).take 2).map jsTrim
    let field := parts.headD ""
    let property := (parts.drop 1).headD ""
    objSet results field (if property = "" then field else property)) []

/-- A merged input/output map value: decorator-level entries are plain strings
and member-level input entries are `[publicName, internalName]` pairs. -/
inductive InOutVal where
  | strV (s : String)
  | pairV (publicName internalName : String)
deriving DecidableEq, Repr

/-- Embedding of `resolveInput`. -/
def resolveInput (publicName internalName : String) : InOutVal :=
  InOutVal.pairV publicName internalName

/-- Embedding of `resolveOutput`. -/
def resolveOutput (publicName internalName : String) : InOutVal :=
  InOutVal.strV publicName

/-- A class member carrying `@Input`/`@Output` decorators, as
`parseDecoratedFields` reads it: the member name and, per decorator, the
(string-evaluated) argument list. -/
structure DecoratedField where
  fieldName : String
  decoratorsArgs : List (List String)
deriving DecidableEq, Repr

/-- Embedding of `parseDecoratedFields`: a decorator without arguments maps
the field to its own name; one argument maps it through the resolver; more
than one argument is a fatal diagnostic. -/
def parseDecoratedFields (fields : List DecoratedField)
    (mapValueResolver : String → String → InOutVal) :
    Except FatalDiagnosticError (List (String × InOutVal)) :=
  fields.foldlM (fun results field =>
    field.decoratorsArgs.foldlM (fun results args =>
      match args with
      | [] => Except.ok (objSet results field.fieldName (InOutVal.strV field.fieldName))
      | [property] =>
          Except.ok (objSet results field.fieldName
            (mapValueResolver property field.fieldName))
      | _ => Except.error
          { code := ErrorCode.DECORATOR_ARITY_WRONG,
            message := "decorator can have at most one argument" }) results) []

/-- The object spread `{...a, ...b}`: the entries of `b` are assigned on top
of `a` in order. -/
def spreadMerge {α : Type} (a b : List (String × α)) : List (String × α) :=
  match b with
  | [] => a
  | kv :: rest => spreadMerge (objSet a kv.1 kv.2) rest

/-- The decorator-level map lifted to the merged value type. -/
def inputsFromMetaMap (metaArr : Option (List String)) : List (String × InOutVal) :=
  match metaArr with
  | some vs => (parseInputOutputMappingArray vs).map (fun kv => (kv.1, InOutVal.strV kv.2))
  | none => []

/-- Embedding of the input-map construction of `extractDirectiveMetadata`
(`parseFieldToPropertyMapping` for the decorator's `inputs` array, absent
field giving the empty object, then `{...inputsFromMeta, ...inputsFromFields}`). -/
def extractInputsMap (metaArr : Option (List String)) (fields : List DecoratedField) :
    Except FatalDiagnosticError (List (String × InOutVal)) := do
  let inputsFromFields ← parseDecoratedFields fields resolveInput
  pure (spreadMerge (inputsFromMetaMap metaArr) inputsFromFields)

/-- Embedding of the output-map construction of `extractDirectiveMetadata`
(same shape with `resolveOutput`). -/
def extractOutputsMap (metaArr : Option (List String)) (fields : List DecoratedField) :
    Except FatalDiagnosticError (List (String × InOutVal)) := do
  let outputsFromFields ← parseDecoratedFields fields resolveOutput
  pure (spreadMerge (inputsFromMetaMap metaArr) outputsFromFields)

/-! ### NgModule remote scoping (`NgModuleDecoratorHandler`)

Emitted class references are coded as naturals; a `Reference` additionally
carries its `synthetic` flag (set when the reference came through a
foreign-function resolver such as `forwardRef`). The scope registry is a
collaborator, represented as a function from a declaration to its optional
remote scope. -/

/-- Embedding of `Reference` (as much as remote scoping reads off it). -/
structure Reference where
  id : Nat
  synthetic : Bool
deriving DecidableEq, Repr

/-- Embedding of `isSyntheticReference`. -/
def isSyntheticReference (r : Reference) : Bool := r.synthetic

/-- A remote scope: the directives and pipes to patch onto a component. -/
structure RemoteScope where
  directives : List Nat
  pipes : List Nat
deriving DecidableEq, Repr

/-- A directive/pipe argument of the `setComponentScope` call: a plain
`LiteralArrayExpr`, or that array wrapped in a zero-argument closure
(`FunctionExpr([], [ReturnStatement(array)])`). -/
inductive ScopeExpr where
  | literalArray (refs : List Nat)
  | closureWrapped (refs : List Nat)
deriving DecidableEq, Repr

/-- Whether a scope expression is closure-wrapped. -/
def ScopeExpr.isClosure : ScopeExpr → Bool
  | ScopeExpr.literalArray _ => false
  | ScopeExpr.closureWrapped _ => true

/-- A statement of the NgModule's compiled output: the side-effecting
`setComponentScope(component, directives, pipes)` call, the class-metadata
statement, or one of the module definition's own statements. -/
inductive Statement where
  | setComponentScope (component : Nat) (directives pipes : ScopeExpr)
  | metadataStmt (n : Nat)
  | moduleDefStmt (n : Nat)
deriving DecidableEq, Repr

/-- Embedding of the `remoteScopesMayRequireCycleProtection` computation of
`NgModuleDecoratorHandler.analyze`: the module's declarations or imports
contain a forward-referenced (synthetic) reference. -/
def remoteScopesMayRequireCycleProtection (declarationRefs importRefs : List Reference) :
    Bool :=
  declarationRefs.any isSyntheticReference || importRefs.any isSyntheticReference

/-- The `directiveExpr` / `pipesExpr` construction of
`appendRemoteScopingStatements`: closure-wrap exactly when cycle protection is
requested and the array is non-empty. -/
def remoteScopeArgExpr (protection : Bool) (refs : List Nat) : ScopeExpr :=
  if protection && decide (refs.length > 0) then ScopeExpr.closureWrapped refs
  else ScopeExpr.literalArray refs

/-- Embedding of `appendRemoteScopingStatements`: for each declaration with a
remote scope, push a `setComponentScope` statement patching the component's
directives and pipes. -/
def appendRemoteScopingStatements (ngModuleStatements : List Statement)
    (declarations : List Reference) (getRemoteScope : Nat → Option RemoteScope)
    (protection : Bool) : List Statement :=
  match declarations with
  | [] => ngModuleStatements
  | decl :: rest =>
      match getRemoteScope decl.id with
      | some remoteScope =>
          appendRemoteScopingStatements
            (ngModuleStatements ++
              [Statement.setComponentScope decl.id
                (remoteScopeArgExpr protection remoteScope.directives)
                (remoteScopeArgExpr protection remoteScope.pipes)])
            rest getRemoteScope protection
      | none => appendRemoteScopingStatements ngModuleStatements rest getRemoteScope protection

/-- Embedding of `insertMetadataStatement`: unshift the class metadata
statement, when present. -/
def insertMetadataStatement (ngModuleStatements : List Statement)
    (metadata : Option Statement) : List Statement :=
  match metadata with
  | some m => m :: ngModuleStatements
  | none => ngModuleStatements

/-- Embedding of the statement assembly of `compileFull`: the `ngModuleDef`
statements, then the metadata statement insertion, then the remote-scoping
statements, with `remoteScopesMayRequireCycleProtection` as computed during
analysis from the module's declaration and import references. -/
def compileFullStatements (ngModuleDefStatements : List Statement)
    (metadata : Option Statement) (declarations importRefs : List Reference)
    (getRemoteScope : Nat → Option RemoteScope) : List Statement :=
  let statements := insertMetadataStatement ngModuleDefStatements metadata
  appendRemoteScopingStatements statements declarations getRemoteScope
    (remoteScopesMayRequireCycleProtection declarations importRefs)

/-! ### ViewContainerRef runtime (`R3ViewContainerRef`, `src/unnamed/part_006`)

The world holds a list of view containers (each with its logical `LView` slots
past `CONTAINER_HEADER_OFFSET`, its `VIEW_REFS` array and its physical DOM
sibling order) plus per-view `PARENT` pointers and destroyed flags, views
being identified by naturals. Methods return the successor world together
with a trace of the mutation events they performed, in execution order; the
DOM-manipulation and array-utility helpers they call live outside `src/` and
are modelled from the spec (doc comments say so). -/

/-- Development-mode flag: the embedding models development mode, in which the
`ngDevMode` assertions are active. -/
def ngDevMode : Bool := true

/-- An `LContainer`: logical view slots, the `VIEW_REFS` array, the DOM
sibling order of attached views' root nodes, and whether
`nativeParentNode(renderer, lContainer[NATIVE])` is non-null (the container is
itself rendered). -/
structure LContainerM where
  views : List Nat
  viewRefs : List Nat
  dom : List Nat
  hasParentRNode : Bool
deriving DecidableEq, Repr

instance : Inhabited LContainerM :=
  ⟨{ views := [], viewRefs := [], dom := [], hasParentRNode := false }⟩

/-- The runtime world: containers indexed by id, and per-view (`PARENT`
pointer, destroyed flag) indexed by view id. -/
structure World where
  containers : List LContainerM
  viewParent : List (Option Nat)
  viewDestroyed : List Bool
deriving DecidableEq, Repr

/-- Container lookup (an absent id denotes an empty container). -/
def getContainer (w : World) (cid : Nat) : LContainerM :=
  w.containers.getD cid default

/-- Container update. -/
def setContainer (w : World) (cid : Nat) (c : LContainerM) : World :=
  { w with containers := w.containers.set cid c }

/-- The view's `PARENT` slot, as a container id when the view is attached. -/
def parentOf (w : World) (v : Nat) : Option Nat := w.viewParent.getD v none

/-- The view's destroyed flag. -/
def destroyedOf (w : World) (v : Nat) : Bool := w.viewDestroyed.getD v false

/-- Update of a view's `PARENT` slot. -/
def setParent (w : World) (v : Nat) (p : Option Nat) : World :=
  { w with viewParent := w.viewParent.set v p }

/-- Marks a view destroyed. -/
def setDestroyed (w : World) (v : Nat) : World :=
  { w with viewDestroyed := w.viewDestroyed.set v true }

/-- The mutation events a `ViewContainerRef` method can perform, in the order
the method performs them: logical insertion (`insertView`), physical DOM
insertion (`addViewToContainer`), `VIEW_REFS` splice-in (`addToArray`),
logical-and-physical detachment (`detachView`), `VIEW_REFS` splice-out
(`removeFromArray`), and destruction-hook invocation (`destroyLView`; the
event records the container length a reentrant hook observes). -/
inductive Ev where
  | insertViewEv (view cid idx : Nat)
  | addViewToContainerEv (view cid idx : Nat)
  | refsAddEv (view cid idx : Nat)
  | detachViewEv (view cid idx : Nat)
  | refsRemoveEv (cid idx : Nat)
  | destroyEv (view cid observedLen : Nat)
deriving DecidableEq, Repr

/-- Modelled from the spec: `insertView` (render3 `node_manipulation`, not
under `src/`) logically attaches the view into the container's `LView` slots
at the given index and points the view's `PARENT` at the container. -/
def insertView (w : World) (v cid idx : Nat) : World :=
  let c := getContainer w cid
  setParent (setContainer w cid { c with views := c.views.insertIdx idx v }) v (some cid)

/-- Modelled from the spec: `addViewToContainer` (not under `src/`) performs
the physical DOM insertion of the view's root nodes at the sibling position
for the given index (the anchor produced by `getBeforeNodeForView`). -/
def addViewToContainer (w : World) (v cid idx : Nat) : World :=
  let c := getContainer w cid
  setContainer w cid { c with dom := c.dom.insertIdx idx v }

/-- Modelled from the spec: `detachView` (not under `src/`) removes the view
at the given index from the container's `LView` slots and from the DOM, and
clears its `PARENT`; it returns the detached view, or nothing when the index
is out of bounds. -/
def detachView (w : World) (cid idx : Nat) : World × Option Nat :=
  let c := getContainer w cid
  match c.views.get? idx with
  | some v =>
      (setParent
        (setContainer w cid { c with views := c.views.eraseIdx idx, dom := c.dom.erase v })
        v none, some v)
  | none => (w, none)

/-- Modelled from the spec: `addToArray(arr, index, value)` (`array_utils`,
not under `src/`) splices the value into the `VIEW_REFS` array at the index. -/
def refsAdd (w : World) (cid idx v : Nat) : World :=
  let c := getContainer w cid
  setContainer w cid { c with viewRefs := c.viewRefs.insertIdx idx v }

/-- Modelled from the spec: `removeFromArray(arr, index)` (`array_utils`, not
under `src/`) removes and returns the `VIEW_REFS` entry at the index (the last
entry when the index points at or past the end). -/
def refsRemove (w : World) (cid idx : Nat) : World × Option Nat :=
  let c := getContainer w cid
  if c.viewRefs.length ≤ idx + 1 then
    match c.viewRefs.getLast? with
    | some v => (setContainer w cid { c with viewRefs := c.viewRefs.dropLast }, some v)
    | none => (w, none)
  else
    (setContainer w cid { c with viewRefs := c.viewRefs.eraseIdx idx },
      c.viewRefs.get? idx)

/-- Modelled from the spec: `destroyLView` (not under `src/`) runs the view's
destruction hooks and marks it destroyed; what a reentrant hook observes is
recorded by the caller in the `destroyEv` trace event. -/
def destroyLView (w : World) (v : Nat) : World := setDestroyed w v

/-- Embedding of the `length` getter:
`this._lContainer.length - CONTAINER_HEADER_OFFSET`. -/
def vcrLength (w : World) (cid : Nat) : Nat := (getContainer w cid).views.length

/-- Embedding of `indexOf`: `getViewRefs(this._lContainer).indexOf(viewRef)`,
`-1` when absent (or when `VIEW_REFS` was never created). -/
def vcrIndexOf (w : World) (cid v : Nat) : Int :=
  match (getContainer w cid).viewRefs.findIdx? (fun x => x == v) with
  | some i => (i : Int)
  | none => -1

/-- Modelled from the spec (`view_utils`, not under `src/`):
`viewAttachedToContainer` — the view's `PARENT` slot holds an `LContainer`. -/
def viewAttachedToContainer (w : World) (v : Nat) : Bool := (parentOf w v).isSome

/-- Embedding of `R3ViewContainerRef._adjustIndex`: an omitted index defaults
to `length + shift`; in dev mode an explicit index must satisfy the
`assertGreaterThan(index, -1, ...)` and
`assertLessThan(index, length + 1 + shift, ...)` programming-error assertions,
which otherwise throw; the index is returned unchanged (never clamped). -/
def adjustIndex (length : Nat) (index : Option Int) (shift : Int) : Except String Int :=
  match index with
  | none => Except.ok ((length : Int) + shift)
  | some i =>
      if ngDevMode then
        if i ≤ -1 then
          Except.error ("ViewRef index must be positive, got " ++ toString i)
        else if (length : Int) + 1 + shift ≤ i then Except.error "index"
        else Except.ok i
      else Except.ok i

/-- Embedding of `R3ViewContainerRef.detach`: adjust the index (shift `-1`,
so an omitted index detaches the last view), `detachView`, and splice the
`ViewRef` out of `VIEW_REFS`; returns the detached view when both succeeded. -/
def vcrDetach (w : World) (cid : Nat) (index : Option Int) :
    Except String (World × Option Nat × List Ev) :=
  match adjustIndex (vcrLength w cid) index (-1) with
  | Except.error e => Except.error e
  | Except.ok adjustedIdx =>
      let aidx := adjustedIdx.toNat
      let p := detachView w cid aidx
      match p.2 with
      | some v =>
          let q := refsRemove p.1 cid aidx
          Except.ok (q.1, if q.2.isSome then some v else none,
            [Ev.detachViewEv v cid aidx, Ev.refsRemoveEv cid aidx])
      | none => Except.ok (p.1, none, [])

/-- Embedding of `R3ViewContainerRef.insert`: a destroyed view is a thrown
programming error; a view already attached somewhere is first detached — from
this container when `indexOf` finds it here, otherwise from the container its
`PARENT` pointer designates (the reconstructed previous `ViewContainerRef`);
then the view is logically inserted (`insertView`), physically added to the
DOM (`addViewToContainer`, when the container has a rendered parent node), and
finally spliced into `VIEW_REFS` (`addToArray`). The `ViewRef`-internal
`attachToViewContainerRef` bookkeeping has no observable effect in the model.
The body is split here into the detach phase (`vcrInsert`) and the
insertion phase (`vcrInsertTail`).

The portion of `R3ViewContainerRef.insert` after the
detach-from-previous-container phase, operating on the world `w1` that phase
produced (and carrying its trace `pre`): adjust the index (shift `0`, so an
omitted index appends at the end), logically insert (`insertView`), physically
add to the DOM (`addViewToContainer`, when the container has a rendered parent
node), and splice into `VIEW_REFS` (`addToArray`). -/
def vcrInsertTail (w1 : World) (cid v : Nat) (index : Option Int) (pre : List Ev) :
    Except String (World × List Ev) :=
  match adjustIndex (vcrLength w1 cid) index 0 with
  | Except.error e => Except.error e
  | Except.ok adjustedIdx =>
      let aidx := adjustedIdx.toNat
      let w2 := insertView w1 v cid aidx
      let s3 :=
        if (getContainer w2 cid).hasParentRNode then
          (addViewToContainer w2 v cid aidx, [Ev.addViewToContainerEv v cid aidx])
        else (w2, ([] : List Ev))
      let w4 := refsAdd s3.1 cid aidx v
      Except.ok (w4,
        pre ++ [Ev.insertViewEv v cid aidx] ++ s3.2 ++ [Ev.refsAddEv v cid aidx])

def vcrInsert (w : World) (cid v : Nat) (index : Option Int) :
    Except String (World × List Ev) :=
  if ngDevMode && destroyedOf w v then
    Except.error "Cannot insert a destroyed View in a ViewContainer!"
  else
    let step1 : Except String (World × List Ev) :=
      match parentOf w v with
      | none => Except.ok (w, [])
      | some prevCid =>
          let prevIdx := vcrIndexOf w cid v
          if prevIdx ≠ -1 then
            match vcrDetach w cid (some prevIdx) with
            | Except.error e => Except.error e
            | Except.ok r => Except.ok (r.1, r.2.2)
          else
            match vcrDetach w prevCid (some (vcrIndexOf w prevCid v)) with
            | Except.error e => Except.error e
            | Except.ok r => Except.ok (r.1, r.2.2)
    match step1 with
    | Except.error e => Except.error e
    | Except.ok s1 => vcrInsertTail s1.1 cid v index s1.2

/-- Embedding of `R3ViewContainerRef.move`: a destroyed view is a thrown
programming error; otherwise `insert(viewRef, newIndex)`. -/
def vcrMove (w : World) (cid v : Nat) (newIndex : Int) :
    Except String (World × List Ev) :=
  if ngDevMode && destroyedOf w v then
    Except.error "Cannot move a destroyed View in a ViewContainer!"
  else vcrInsert w cid v (some newIndex)

/-- Embedding of `R3ViewContainerRef.remove`: adjust the index (shift `-1`, so
an omitted index removes the last view), `detachView`, splice the `ViewRef`
out of `VIEW_REFS` — "this ensures the view container length is updated before
calling `destroyLView`" — and only then destroy the detached view. -/
def vcrRemove (w : World) (cid : Nat) (index : Option Int) :
    Except String (World × List Ev) :=
  match adjustIndex (vcrLength w cid) index (-1) with
  | Except.error e => Except.error e
  | Except.ok adjustedIdx =>
      let aidx := adjustedIdx.toNat
      let p := detachView w cid aidx
      match p.2 with
      | some v =>
          let q := refsRemove p.1 cid aidx
          Except.ok (destroyLView q.1 v,
            [Ev.detachViewEv v cid aidx, Ev.refsRemoveEv cid aidx,
              Ev.destroyEv v cid (vcrLength q.1 cid)])
      | none => Except.ok (p.1, [])

/-- Embedding of `R3ViewContainerRef.createEmbeddedView`: the collaborating
`templateRef.createEmbeddedView` produces a fresh unattached view (supplied
here as `newView`), which is then inserted via `this.insert(viewRef, index)`. -/
def vcrCreateEmbeddedView (w : World) (cid newView : Nat) (index : Option Int) :
    Except String (World × List Ev) :=
  vcrInsert w cid newView index

/-- Embedding of `R3ViewContainerRef.createComponent` (index handling): the
component factory produces a fresh host view, which is then inserted via
`this.insert(componentRef.hostView, index)`. -/
def vcrCreateComponent (w : World) (cid hostView : Nat) (index : Option Int) :
    Except String (World × List Ev) :=
  vcrInsert w cid hostView index

/-- Event classifier: logical list insertion of a specific view. -/
def isInsertOf (v : Nat) : Ev → Bool
  | Ev.insertViewEv v' _ _ => v' == v
  | _ => false

/-- Event classifier: detachment of a specific view. -/
def isDetachOf (v : Nat) : Ev → Bool
  | Ev.detachViewEv v' _ _ => v' == v
  | _ => false

/-- Event classifier: any logical `insertView` mutation. -/
def isLogicalInsertEv : Ev → Bool
  | Ev.insertViewEv _ _ _ => true
  | _ => false

/-- Event classifier: any physical `addViewToContainer` mutation. -/
def isPhysicalAddEv : Ev → Bool
  | Ev.addViewToContainerEv _ _ _ => true
  | _ => false

/-- Whether, in a trace, the first event matching `p` strictly precedes the
first event matching `q` (both must occur). -/
def occursBefore (p q : Ev → Bool) (evs : List Ev) : Bool :=
  match evs.findIdx? p, evs.findIdx? q with
  | some i, some j => decide (i < j)
  | _, _ => false

/-- Well-formedness of a world: each container's `VIEW_REFS` and DOM order
agree with its logical view list, view lists hold no duplicates, and the
`PARENT` pointers agree with container membership (which makes membership
unique across containers). -/
structure WF (w : World) : Prop where
  refsEq : ∀ cid, (getContainer w cid).viewRefs = (getContainer w cid).views
  domEq : ∀ cid, (getContainer w cid).dom = (getContainer w cid).views
  nodup : ∀ cid, (getContainer w cid).views.Nodup
  memParent : ∀ cid, ∀ v ∈ (getContainer w cid).views, parentOf w v = some cid
  parentMem : ∀ v cid, parentOf w v = some cid → v ∈ (getContainer w cid).views

/-- The concrete two-container world used by the C2 witness: view `5` is
attached at index 0 of container 1; container 0 is empty. -/
def c2World : World :=
  { containers :=
      [{ views := [], viewRefs := [], dom := [], hasParentRNode := true },
       { views := [5], viewRefs := [5], dom := [5], hasParentRNode := true }],
    viewParent := [none, none, none, none, none, some 1],
    viewDestroyed := [false, false, false, false, false, false] }

/-- The concrete world used by the C3 witness: one container holding views
`7` and `8`. -/
def c3World : World :=
  { containers :=
      [{ views := [7, 8], viewRefs := [7, 8], dom := [7, 8], hasParentRNode := true }],
    viewParent := [none, none, none, none, none, none, none, some 0, some 0],
    viewDestroyed := [false, false, false, false, false, false, false, false, false] }

/-- The concrete world used by the C4 counterexample and witness: one empty
rendered container, view `5` unattached. -/
def c4World : World :=
  { containers := [{ views := [], viewRefs := [], dom := [], hasParentRNode := true }],
    viewParent := [none, none, none, none, none, none],
    viewDestroyed := [false, false, false, false, false, false] }

/-- The trace of a successful insert call (empty on a thrown error). -/
def insertTrace (w : World) (cid v : Nat) (index : Option Int) : List Ev :=
  match vcrInsert w cid v index with
  | Except.ok p => p.2
  | Except.error _ => []

end Ng

namespace Ng

theorem dispatchChain_result_false (st : DispatchState) (fs : List ListenerFn) (e : Nat) :
    (dispatchChain st false fs e).1 = false := by
  induction fs generalizing st with
  | nil => rfl
  | cons f fs ih =>
      simp only [dispatchChain, Bool.and_false]
      exact ih _

theorem dispatchChain_invocations (st : DispatchState) (r : Bool) (fs : List ListenerFn)
    (e : Nat) : (dispatchChain st r fs e).2.invocations = st.invocations + fs.length := by
  induction fs generalizing st r with
  | nil => rfl
  | cons f fs ih =>
      simp only [dispatchChain]
      rw [ih]
      cases hf : f e <;> simp [executeListenerWithErrorHandling, hf] <;> omega

theorem dispatchChain_errors_mono (st : DispatchState) (r : Bool) (fs : List ListenerFn)
    (e x : Nat) (hx : x ∈ st.errors) : x ∈ (dispatchChain st r fs e).2.errors := by
  induction fs generalizing st r with
  | nil => exact hx
  | cons f fs ih =>
      simp only [dispatchChain]
      apply ih
      cases hf : f e <;> simp [executeListenerWithErrorHandling, hf, hx]

theorem dispatchChain_append (st : DispatchState) (r : Bool) (xs ys : List ListenerFn)
    (e : Nat) :
    dispatchChain st r (xs ++ ys) e =
      dispatchChain (dispatchChain st r xs e).2 (dispatchChain st r xs e).1 ys e := by
  induction xs generalizing st r with
  | nil => rfl
  | cons f fs ih =>
      simp only [List.cons_append, dispatchChain]
      exact ih _ _

theorem dispatchChain_result_indep (st st' : DispatchState) (r : Bool)
    (fs : List ListenerFn) (e : Nat) :
    (dispatchChain st r fs e).1 = (dispatchChain st' r fs e).1 := by
  induction fs generalizing st st' r with
  | nil => rfl
  | cons f fs ih =>
      simp only [dispatchChain]
      cases hf : f e <;> simp only [executeListenerWithErrorHandling, hf] <;> exact ih _ _ _

theorem wrapListenerDispatch_eq_chain (chain : List ListenerFn) (e : Nat) :
    wrapListenerDispatch chain e =
      dispatchChain { errors := [], invocations := 0 } true chain e := by
  cases chain with
  | nil => rfl
  | cons f fs =>
      simp only [wrapListenerDispatch, dispatchChain, Bool.and_true]

/-- C10: a handler that throws is treated like one that explicitly returns
`false`: the exception is routed to the error handler (it appears in the
`handleError` log instead of propagating), every handler of the coalesced chain
is still executed, the overall dispatch result is `false` (the same result as
with the throwing handler replaced by a `return false` handler, with the same
number of invocations), and `preventDefault` applies whenever the
`preventDefault` wrapping is requested. -/
theorem c10_throwing_handler_like_return_false (pre post : List ListenerFn)
    (f : ListenerFn) (e err : Nat) (hf : f e = JsOutcome.exn err) :
    (wrapListenerDispatch (pre ++ f :: post) e).1 = false ∧
    (wrapListenerDispatch (pre ++ f :: post) e).2.invocations =
      (pre ++ f :: post).length ∧
    err ∈ (wrapListenerDispatch (pre ++ f :: post) e).2.errors ∧
    (wrapListenerDispatch (pre ++ f :: post) e).1 =
      (wrapListenerDispatch (pre ++ constFalseListener :: post) e).1 ∧
    (wrapListenerDispatch (pre ++ f :: post) e).2.invocations =
      (wrapListenerDispatch (pre ++ constFalseListener :: post) e).2.invocations ∧
    appliesPreventDefault true (wrapListenerDispatch (pre ++ f :: post) e).1 = true := by
  rw [wrapListenerDispatch_eq_chain, wrapListenerDispatch_eq_chain]
  rw [dispatchChain_append, dispatchChain_append]
  generalize hp : dispatchChain { errors := [], invocations := 0 } true pre e = p
  have hres : (dispatchChain p.2 p.1 (f :: post) e).1 = false := by
    simp only [dispatchChain, executeListenerWithErrorHandling, hf]
    simp only [Bool.false_and]
    exact dispatchChain_result_false _ _ _
  have hres' : (dispatchChain p.2 p.1 (constFalseListener :: post) e).1 = false := by
    simp only [dispatchChain, executeListenerWithErrorHandling, constFalseListener]
    simp only [Bool.false_and]
    exact dispatchChain_result_false _ _ _
  have hinvpre : p.2.invocations = pre.length := by
    rw [← hp, dispatchChain_invocations]
    simp
  have hinv : (dispatchChain p.2 p.1 (f :: post) e).2.invocations =
      (pre ++ f :: post).length := by
    rw [dispatchChain_invocations, hinvpre]
    simp [List.length_append]
  have hinv' : (dispatchChain p.2 p.1 (constFalseListener :: post) e).2.invocations =
      (pre ++ f :: post).length := by
    rw [dispatchChain_invocations, hinvpre]
    simp [List.length_append]
  have herr : err ∈ (dispatchChain p.2 p.1 (f :: post) e).2.errors := by
    simp only [dispatchChain, executeListenerWithErrorHandling, hf]
    exact dispatchChain_errors_mono _ _ _ _ _ (by simp)
  refine ⟨hres, hinv, herr, ?_, ?_, ?_⟩
  · rw [hres, hres']
  · rw [hinv, hinv']
  · rw [hres]; rfl

/-- Witness for C10 at a concrete chain: one normal handler followed by a
throwing handler followed by another handler. -/
theorem c10_throwing_handler_like_return_false_witness :
    throwingListener 42 0 = JsOutcome.exn 42 ∧
    ((wrapListenerDispatch ([okListener 1] ++ throwingListener 42 :: [okListener 2]) 0).1 =
      false ∧
    (wrapListenerDispatch
        ([okListener 1] ++ throwingListener 42 :: [okListener 2]) 0).2.invocations =
      ([okListener 1] ++ throwingListener 42 :: [okListener 2]).length ∧
    42 ∈ (wrapListenerDispatch
        ([okListener 1] ++ throwingListener 42 :: [okListener 2]) 0).2.errors ∧
    (wrapListenerDispatch ([okListener 1] ++ throwingListener 42 :: [okListener 2]) 0).1 =
      (wrapListenerDispatch ([okListener 1] ++ constFalseListener :: [okListener 2]) 0).1 ∧
    (wrapListenerDispatch
        ([okListener 1] ++ throwingListener 42 :: [okListener 2]) 0).2.invocations =
      (wrapListenerDispatch
        ([okListener 1] ++ constFalseListener :: [okListener 2]) 0).2.invocations ∧
    appliesPreventDefault true
      (wrapListenerDispatch ([okListener 1] ++ throwingListener 42 :: [okListener 2]) 0).1 =
      true) :=
  ⟨rfl, c10_throwing_handler_like_return_false [okListener 1] [okListener 2]
    (throwingListener 42) 0 42 rfl⟩

/-- C1 counterexample: with view provider value `1` and component provider
value `2` for multi-token `7`, a lookup from within the view yields `[2, 1]`
(component contribution first, view contribution second), not `[1, 2]` as the
claim states; moreover running the provider-level multi factory (blueprint
slot 1) yields only `[2]` — it does not include the view-provider
contribution at all. -/
theorem c1_multi_order_counterexample :
    lookupFromView (c1State 1 2) 7 = some [2, 1] ∧
    lookupFromView (c1State 1 2) 7 ≠ some [1, 2] ∧
    ((c1State 1 2).blueprint.get? 1).map (runNodeInjectorFactory (c1State 1 2)) =
      some [2] := by
  refine ⟨by decide, by decide, by decide⟩

set_option maxHeartbeats 2000000 in
/-- C1 (amended): for a multi-token contributed to by both the component's
`viewProviders` (value `xv`) and its `providers` (value `xc`), a lookup from
within the component's view yields `[xc, xv]` — the component's provider
contribution first and the view-provider contribution second — and with a
further contribution `xd` from another directive's providers the lookup yields
`[xc, xv, xd]` (view contributions before other directives' contributions).
The linkage runs from the view-provider factory to the provider-level factory:
running the provider-level multi factory alone yields only the provider
contributions `[xc]`. -/
theorem c1_multi_order_amended (xv xc xd : Nat) :
    lookupFromView (c1State xv xc) 7 = some [xc, xv] ∧
    lookupFromView
      (resolveProvider (ProviderM.single 7 xd true) false false (c1State xv xc)) 7 =
      some [xc, xv, xd] ∧
    ((c1State xv xc).blueprint.get? 1).map (runNodeInjectorFactory (c1State xv xc)) =
      some [xc] := by
  refine ⟨rfl, rfl, rfl⟩

/-- C6: a class with no explicit constructor but with a base class defers to
the base class (`getConstructorDependencies` returns `null`); the empty
zero-argument dependency list is returned only without a base class. -/
theorem c6_no_ctor_inherits_from_base (clazz : ClassDeclaration)
    (h : clazz.ctorParams = none) :
    (clazz.hasBaseClass = true → getConstructorDependencies clazz = Except.ok none) ∧
    (clazz.hasBaseClass = false →
      getConstructorDependencies clazz =
        Except.ok (some (ConstructorDeps.valid []))) := by
  constructor <;> intro hb
  · simp only [getConstructorDependencies, h, hb]
    rfl
  · simp only [getConstructorDependencies, h, hb]
    rfl

/-- Witness for C6: a class with no constructor and a base class, and the same
class without the base class. -/
theorem c6_no_ctor_inherits_from_base_witness :
    ({ name := "C", ctorParams := none, hasBaseClass := true } :
        ClassDeclaration).ctorParams = none ∧
    ((({ name := "C", ctorParams := none, hasBaseClass := true } :
        ClassDeclaration).hasBaseClass = true →
      getConstructorDependencies
        { name := "C", ctorParams := none, hasBaseClass := true } = Except.ok none) ∧
    (({ name := "C", ctorParams := none, hasBaseClass := true } :
        ClassDeclaration).hasBaseClass = false →
      getConstructorDependencies
        { name := "C", ctorParams := none, hasBaseClass := true } =
        Except.ok (some (ConstructorDeps.valid [])))) :=
  ⟨rfl, c6_no_ctor_inherits_from_base
    { name := "C", ctorParams := none, hasBaseClass := true } rfl⟩

/-- C5: when constructor dependency extraction records invalid deps, a null
resolved selector (abstract base) lets extraction complete without a fatal
diagnostic, with the deps marked invalid; any non-null selector makes it fail
with a fatal `PARAM_MISSING_TOKEN` diagnostic whose message reads "No suitable
injection token for parameter ..." and names the offending parameter. -/
theorem c5_selector_gates_ctor_dep_validation (clazz : ClassDeclaration)
    (e : ConstructorDepError) (rest : List ConstructorDepError) (s : String)
    (h : getConstructorDependencies clazz =
      Except.ok (some (ConstructorDeps.invalid (e :: rest)))) :
    extractCtorDeps none clazz = Except.ok CtorDepsResolution.invalid ∧
    extractCtorDeps (some s) clazz =
      Except.error (createUnsuitableInjectionTokenError clazz e) ∧
    (createUnsuitableInjectionTokenError clazz e).code = ErrorCode.PARAM_MISSING_TOKEN ∧
    (e.paramName = "" →
      (createUnsuitableInjectionTokenError clazz e).message =
        "No suitable injection token for parameter \x27" ++ toString e.index ++
          "\x27 of class \x27" ++ clazz.name ++ "\x27.") ∧
    (e.paramName ≠ "" →
      (createUnsuitableInjectionTokenError clazz e).message =
        "No suitable injection token for parameter \x27" ++ e.paramName ++
          "\x27 of class \x27" ++ clazz.name ++ "\x27.") := by
  refine ⟨?_, ?_, rfl, ?_, ?_⟩
  · simp only [extractCtorDeps, h]
    rfl
  · simp only [extractCtorDeps, h]
    rfl
  · intro hn
    simp [createUnsuitableInjectionTokenError, hn]
  · intro hn
    simp [createUnsuitableInjectionTokenError, hn]

/-- Witness for C5: `c5Class` has one parameter with an unresolvable token;
with a null selector extraction tolerates it, with selector `"x"` it raises
the `PARAM_MISSING_TOKEN` diagnostic naming parameter `dep`. -/
theorem c5_selector_gates_ctor_dep_validation_witness :
    getConstructorDependencies c5Class =
      Except.ok (some (ConstructorDeps.invalid
        [{ index := 0, paramName := "dep",
           reason := ValueUnavailableKind.unknownReference }])) ∧
    (extractCtorDeps none c5Class = Except.ok CtorDepsResolution.invalid ∧
    extractCtorDeps (some "x") c5Class =
      Except.error (createUnsuitableInjectionTokenError c5Class
        { index := 0, paramName := "dep",
          reason := ValueUnavailableKind.unknownReference }) ∧
    (createUnsuitableInjectionTokenError c5Class
        { index := 0, paramName := "dep",
          reason := ValueUnavailableKind.unknownReference }).code =
      ErrorCode.PARAM_MISSING_TOKEN ∧
    (({ index := 0, paramName := "dep",
        reason := ValueUnavailableKind.unknownReference } :
          ConstructorDepError).paramName = "" →
      (createUnsuitableInjectionTokenError c5Class
        { index := 0, paramName := "dep",
          reason := ValueUnavailableKind.unknownReference }).message =
        "No suitable injection token for parameter \x27" ++ toString (0 : Nat) ++
          "\x27 of class \x27" ++ c5Class.name ++ "\x27.") ∧
    (({ index := 0, paramName := "dep",
        reason := ValueUnavailableKind.unknownReference } :
          ConstructorDepError).paramName ≠ "" →
      (createUnsuitableInjectionTokenError c5Class
        { index := 0, paramName := "dep",
          reason := ValueUnavailableKind.unknownReference }).message =
        "No suitable injection token for parameter \x27dep\x27 of class \x27Dir\x27.")) := by
  refine ⟨rfl, ?_⟩
  have h := c5_selector_gates_ctor_dep_validation c5Class
    { index := 0, paramName := "dep", reason := ValueUnavailableKind.unknownReference }
    [] "x" rfl
  exact ⟨h.1, h.2.1, h.2.2.1, fun hc => absurd hc (by decide), fun _ => rfl⟩

theorem objGet_objSet {α : Type} (m : List (String × α)) (k k' : String) (v : α) :
    objGet (objSet m k v) k' = if k' = k then some v else objGet m k' := by
  induction m with
  | nil =>
      by_cases h : k' = k
      · subst h; simp [objSet, objGet]
      · simp [objSet, objGet, h, Ne.symm h]
  | cons kv rest ih =>
      by_cases h1 : kv.1 = k
      · by_cases h2 : k' = k
        · subst h2
          simp [objSet, objGet, h1]
        · simp [objSet, objGet, h1, h2, Ne.symm h2]
      · by_cases h2 : kv.1 = k'
        · have h3 : ¬ k' = k := fun hh => h1 (h2.trans hh)
          simp [objSet, objGet, h1, h2, h3]
        · simp [objSet, objGet, h1, h2, ih]

theorem objGet_spreadMerge {α : Type} (b a : List (String × α)) (k : String) :
    objGet (spreadMerge a b) k =
      (objGetLast b k).orElse (fun _ => objGet a k) := by
  induction b generalizing a with
  | nil => simp [spreadMerge, objGetLast, Option.orElse]
  | cons kv rest ih =>
      simp only [spreadMerge, objGetLast]
      rw [ih, objGet_objSet]
      cases hrest : objGetLast rest k <;>
        by_cases h : k = kv.1 <;>
          simp [Option.orElse, h, eq_comm, hrest]

/-- C7: the resolved input and output maps are the union of the
decorator-level arrays and the member-level `@Input`/`@Output` declarations,
and for a field declared on both levels the last-applied (member-level)
declaration wins in the merged map. -/
theorem c7_input_output_maps_union_member_wins
    (metaIn metaOut : Option (List String)) (ifields ofields : List DecoratedField)
    (im om fmIn fmOut : List (String × InOutVal))
    (him : extractInputsMap metaIn ifields = Except.ok im)
    (hfi : parseDecoratedFields ifields resolveInput = Except.ok fmIn)
    (hom : extractOutputsMap metaOut ofields = Except.ok om)
    (hfo : parseDecoratedFields ofields resolveOutput = Except.ok fmOut) :
    (∀ f, objGet im f =
      (objGetLast fmIn f).orElse (fun _ => objGet (inputsFromMetaMap metaIn) f)) ∧
    (∀ f v, objGetLast fmIn f = some v → objGet im f = some v) ∧
    (∀ f, objGetLast fmIn f = none →
      objGet im f = objGet (inputsFromMetaMap metaIn) f) ∧
    (∀ f, objGet om f =
      (objGetLast fmOut f).orElse (fun _ => objGet (inputsFromMetaMap metaOut) f)) ∧
    (∀ f v, objGetLast fmOut f = some v → objGet om f = some v) ∧
    (∀ f, objGetLast fmOut f = none →
      objGet om f = objGet (inputsFromMetaMap metaOut) f) := by
  have him' : im = spreadMerge (inputsFromMetaMap metaIn) fmIn := by
    simp [extractInputsMap, hfi] at him
    exact him.symm
  have hom' : om = spreadMerge (inputsFromMetaMap metaOut) fmOut := by
    simp [extractOutputsMap, hfo] at hom
    exact hom.symm
  subst him' hom'
  refine ⟨fun f => objGet_spreadMerge _ _ _, ?_, ?_, fun f => objGet_spreadMerge _ _ _, ?_, ?_⟩
  · intro f v hv
    rw [objGet_spreadMerge, hv]
    rfl
  · intro f hv
    rw [objGet_spreadMerge, hv]
    rfl
  · intro f v hv
    rw [objGet_spreadMerge, hv]
    rfl
  · intro f hv
    rw [objGet_spreadMerge, hv]
    rfl

/-- Witness for C7: inputs `["foo: bar"]` at the decorator level together with
a bare `@Input() foo` member; the merged map resolves `foo` to the
member-level mapping. Outputs: `["ev"]` with `@Output("alias") ev`. -/
theorem c7_input_output_maps_union_member_wins_witness :
    extractInputsMap (some ["foo: bar"]) [{ fieldName := "foo", decoratorsArgs := [[]] }] =
      Except.ok [("foo", InOutVal.strV "foo")] ∧
    parseDecoratedFields [{ fieldName := "foo", decoratorsArgs := [[]] }] resolveInput =
      Except.ok [("foo", InOutVal.strV "foo")] ∧
    extractOutputsMap (some ["ev"]) [{ fieldName := "ev", decoratorsArgs := [["alias"]] }] =
      Except.ok [("ev", InOutVal.strV "alias")] ∧
    parseDecoratedFields [{ fieldName := "ev", decoratorsArgs := [["alias"]] }] resolveOutput =
      Except.ok [("ev", InOutVal.strV "alias")] ∧
    (∀ f v,
      objGetLast [("foo", InOutVal.strV "foo")] f = some v →
      objGet [("foo", InOutVal.strV "foo")] f = some v) ∧
    (∀ f v,
      objGetLast [("ev", InOutVal.strV "alias")] f = some v →
      objGet [("ev", InOutVal.strV "alias")] f = some v) := by
  have h := c7_input_output_maps_union_member_wins (some ["foo: bar"]) (some ["ev"])
    [{ fieldName := "foo", decoratorsArgs := [[]] }]
    [{ fieldName := "ev", decoratorsArgs := [["alias"]] }]
    [("foo", InOutVal.strV "foo")] [("ev", InOutVal.strV "alias")]
    [("foo", InOutVal.strV "foo")] [("ev", InOutVal.strV "alias")]
    rfl rfl rfl rfl
  exact ⟨rfl, rfl, rfl, rfl, h.2.1, h.2.2.2.2.1⟩

/-- C9: `_adjustIndex` defaults an omitted index to `length + shift` (append
at the end for `insert`-like callers with shift `0`, the last view for
`remove`/`detach` with shift `-1`); an out-of-range explicit index fails the
dev-mode assertions as a thrown programming error; an in-range explicit index
is returned unchanged, never clamped. -/
theorem c9_adjust_index_defaults_and_range_errors (length : Nat) (shift i : Int)
    (h : i ≤ -1 ∨ (length : Int) + 1 + shift ≤ i) :
    adjustIndex length none shift = Except.ok ((length : Int) + shift) ∧
    adjustIndex length none 0 = Except.ok (length : Int) ∧
    adjustIndex length none (-1) = Except.ok ((length : Int) - 1) ∧
    (∃ msg, adjustIndex length (some i) shift = Except.error msg) ∧
    (∀ j r : Int, adjustIndex length (some j) shift = Except.ok r → r = j) ∧
    (∀ (w : World) (cid v : Nat), vcrLength w cid = length →
      parentOf w v = none → destroyedOf w v = false →
      0 ≤ i → (length : Int) + 1 ≤ i →
      vcrInsert w cid v (some i) = Except.error "index") ∧
    (∀ (w : World) (cid : Nat), vcrLength w cid = length →
      0 ≤ i → (length : Int) ≤ i →
      vcrRemove w cid (some i) = Except.error "index" ∧
      vcrDetach w cid (some i) = Except.error "index") := by
  refine ⟨rfl, by simp [adjustIndex], by simp [adjustIndex, sub_eq_add_neg],
    ?_, ?_, ?_, ?_⟩
  · by_cases h1 : i ≤ -1
    · exact ⟨"ViewRef index must be positive, got " ++ toString i,
        by simp [adjustIndex, ngDevMode, h1]⟩
    · have h2 := h.resolve_left h1
      exact ⟨"index", by simp [adjustIndex, ngDevMode, h1, h2]⟩
  · intro j r hr
    simp only [adjustIndex, ngDevMode, if_true] at hr
    split_ifs at hr with h1 h2
    exact (Except.ok.inj hr).symm
  · intro w0 cid0 v0 hL hpar hdes h0 hoor
    have h1 : ¬ ((i : Int) ≤ -1) := by omega
    have h2 : (vcrLength w0 cid0 : Int) + 1 + 0 ≤ i := by rw [hL]; omega
    rw [vcrInsert, hdes]
    simp only [ngDevMode, Bool.and_false, Bool.false_eq_true, if_false, hpar]
    rw [vcrInsertTail]
    rw [show adjustIndex (vcrLength w0 cid0) (some i) 0 = Except.error "index" from by
      simp only [adjustIndex, ngDevMode, if_true]
      rw [if_neg h1, if_pos h2]]
  · intro w0 cid0 hL h0 hoor
    have h1 : ¬ ((i : Int) ≤ -1) := by omega
    have h2 : (vcrLength w0 cid0 : Int) + 1 + (-1) ≤ i := by rw [hL]; omega
    have hae : adjustIndex (vcrLength w0 cid0) (some i) (-1) = Except.error "index" := by
      simp only [adjustIndex, ngDevMode, if_true]
      rw [if_neg h1, if_pos h2]
    constructor
    · rw [vcrRemove, hae]
    · rw [vcrDetach, hae]

/-- Witness for C9 at `length = 2`, `shift = 0`, out-of-range index `5`, with
the operation-level consequences instantiated on a concrete world. -/
theorem c9_adjust_index_defaults_and_range_errors_witness :
    ((5 : Int) ≤ -1 ∨ ((2 : Nat) : Int) + 1 + 0 ≤ 5) ∧
    adjustIndex 2 none 0 = Except.ok ((2 : Nat) : Int) ∧
    (∃ msg, adjustIndex 2 (some 5) 0 = Except.error msg) ∧
    vcrInsert c3World 0 5 (some 5) = Except.error "index" ∧
    vcrRemove c3World 0 (some 5) = Except.error "index" ∧
    vcrDetach c3World 0 (some 5) = Except.error "index" :=
  have h := c9_adjust_index_defaults_and_range_errors 2 0 5 (Or.inr (by decide))
  have hrm := h.2.2.2.2.2.2 c3World 0 (by decide) (by decide) (by decide)
  ⟨Or.inr (by decide), h.2.1, h.2.2.2.1,
    h.2.2.2.2.2.1 c3World 0 5 (by decide) (by decide) (by decide) (by decide) (by decide),
    hrm.1, hrm.2⟩

theorem getContainer_setContainer_self (w : World) (cid : Nat) (c : LContainerM)
    (h : cid < w.containers.length) : getContainer (setContainer w cid c) cid = c := by
  simp only [getContainer, setContainer, List.getD]
  rw [List.get?_set_eq_of_lt _ h]
  rfl

theorem getContainer_setContainer_ne (w : World) (cid cid' : Nat) (c : LContainerM)
    (h : cid ≠ cid') : getContainer (setContainer w cid c) cid' = getContainer w cid' := by
  simp only [getContainer, setContainer, List.getD]
  rw [List.get?_set_ne _ _ h]

theorem getContainer_setParent (w : World) (v : Nat) (p : Option Nat) (cid : Nat) :
    getContainer (setParent w v p) cid = getContainer w cid := rfl

theorem getContainer_setDestroyed (w : World) (v cid : Nat) :
    getContainer (setDestroyed w v) cid = getContainer w cid := rfl

theorem length_setContainer (w : World) (cid : Nat) (c : LContainerM) :
    (setContainer w cid c).containers.length = w.containers.length := by
  simp [setContainer]

theorem length_setParent (w : World) (v : Nat) (p : Option Nat) :
    (setParent w v p).containers.length = w.containers.length := rfl

theorem getContainer_out_of_range (w : World) (cid : Nat)
    (h : w.containers.length ≤ cid) : getContainer w cid = default := by
  simp only [getContainer, List.getD]
  rw [List.get?_eq_none.mpr h]
  rfl

theorem mem_views_lt_length (w : World) (cid v : Nat)
    (hm : v ∈ (getContainer w cid).views) : cid < w.containers.length := by
  by_contra hc
  rw [getContainer_out_of_range w cid (Nat.le_of_not_lt hc)] at hm
  cases hm

theorem findIdx?_beq_of_mem (l : List Nat) (v : Nat) (hm : v ∈ l) :
    ∃ i, l.findIdx? (fun x => x == v) = some i := by
  cases hfi : l.findIdx? (fun x => x == v) with
  | some i => exact ⟨i, rfl⟩
  | none =>
      have := List.findIdx?_eq_none_iff.mp hfi v hm
      simp at this

theorem findIdx?_beq_none_of_not_mem (l : List Nat) (v : Nat) (hm : v ∉ l) :
    l.findIdx? (fun x => x == v) = none := by
  apply List.findIdx?_eq_none_iff.mpr
  intro x hx
  simp only [beq_eq_false_iff_ne, ne_eq]
  intro he
  exact hm (he ▸ hx)

theorem findIdx?_beq_spec (l : List Nat) (v i : Nat)
    (h : l.findIdx? (fun x => x == v) = some i) : i < l.length ∧ l.get? i = some v := by
  have h2 := List.findIdx?_eq_some_iff_findIdx_eq.mp h
  refine ⟨h2.1, ?_⟩
  have hw : l.findIdx (fun x => x == v) < l.length := h2.2 ▸ h2.1
  have h3 := @List.findIdx_getElem _ (fun x => x == v) l hw
  have h4 : l[l.findIdx (fun x => x == v)] = v := by
    simpa using h3
  rw [List.get?_eq_getElem?, List.getElem?_eq_getElem h2.1]
  have h5 : l[i] = v := by
    have := h2.2
    subst this
    exact h4
  rw [h5]

theorem eraseIdx_eq_erase_of_nodup (l : List Nat) (i v : Nat)
    (hn : l.Nodup) (hi : l.get? i = some v) : l.eraseIdx i = l.erase v := by
  induction l generalizing i with
  | nil => cases hi
  | cons x rest ih =>
      cases i with
      | zero =>
          have hx : x = v := by
            simpa using hi
          subst hx
          simp [List.eraseIdx, List.erase_cons_head]
      | succ n =>
          have hv : v ∈ rest := List.get?_mem (by simpa using hi)
          have hx : ¬ (x == v) = true := by
            simp only [beq_iff_eq]
            intro he
            subst he
            exact (List.nodup_cons.mp hn).1 hv
          rw [List.eraseIdx, List.erase_cons_tail hx,
            ih n (List.nodup_cons.mp hn).2 (by simpa using hi)]

theorem getLast?_of_get?_last (l : List Nat) (i v : Nat)
    (hi : l.get? i = some v) (hl : l.length ≤ i + 1) : l.getLast? = some v := by
  have hlt : i < l.length := by
    by_contra hc
    rw [List.get?_eq_none.mpr (Nat.le_of_not_lt hc)] at hi
    cases hi
  have hieq : i = l.length - 1 := by omega
  rw [List.getLast?_eq_getElem?, ← hieq, ← List.get?_eq_getElem?]
  exact hi

theorem vcrDetach_found_spec (w : World) (pcid v i : Nat) (hwf : WF w)
    (hpc : pcid < w.containers.length)
    (hfind : (getContainer w pcid).viewRefs.findIdx? (fun x => x == v) = some i) :
    ∃ w1, vcrDetach w pcid (some (i : Int)) =
        Except.ok (w1, some v, [Ev.detachViewEv v pcid i, Ev.refsRemoveEv pcid i]) ∧
      getContainer w1 pcid =
        { views := (getContainer w pcid).views.erase v,
          viewRefs := (getContainer w pcid).views.erase v,
          dom := (getContainer w pcid).views.erase v,
          hasParentRNode := (getContainer w pcid).hasParentRNode } ∧
      (∀ c, c ≠ pcid → getContainer w1 c = getContainer w c) ∧
      w1.containers.length = w.containers.length := by
  have hrefs := hwf.refsEq pcid
  have hdom := hwf.domEq pcid
  have hnd := hwf.nodup pcid
  rw [hrefs] at hfind
  obtain ⟨hilt, hget⟩ := findIdx?_beq_spec _ _ _ hfind
  have herase := eraseIdx_eq_erase_of_nodup _ _ _ hnd hget
  have hadj : adjustIndex (vcrLength w pcid) (some (i : Int)) (-1) = Except.ok (i : Int) := by
    have h2 : i < vcrLength w pcid := hilt
    have h1 : ¬ ((i : Int) ≤ -1) := by omega
    have h3 : ¬ ((vcrLength w pcid : Int) + 1 + (-1) ≤ (i : Int)) := by omega
    simp [adjustIndex, ngDevMode, h1, h2, h3]
  have htn : ((i : Int)).toNat = i := Int.toNat_natCast i
  have hdet : detachView w pcid i =
      (setParent (setContainer w pcid
        { getContainer w pcid with
            views := (getContainer w pcid).views.eraseIdx i,
            dom := (getContainer w pcid).dom.erase v }) v none, some v) := by
    simp only [detachView, hget]
  have hga : getContainer (setParent (setContainer w pcid
      { getContainer w pcid with
          views := (getContainer w pcid).views.eraseIdx i,
          dom := (getContainer w pcid).dom.erase v }) v none) pcid =
      { getContainer w pcid with
          views := (getContainer w pcid).views.eraseIdx i,
          dom := (getContainer w pcid).dom.erase v } := by
    rw [getContainer_setParent, getContainer_setContainer_self _ _ _ hpc]
  have hlen_wa : (setParent (setContainer w pcid
      { getContainer w pcid with
          views := (getContainer w pcid).views.eraseIdx i,
          dom := (getContainer w pcid).dom.erase v }) v none).containers.length =
      w.containers.length := by
    rw [length_setParent, length_setContainer]
  have hrr : refsRemove (setParent (setContainer w pcid
      { getContainer w pcid with
          views := (getContainer w pcid).views.eraseIdx i,
          dom := (getContainer w pcid).dom.erase v }) v none) pcid i =
      (setContainer (setParent (setContainer w pcid
        { getContainer w pcid with
            views := (getContainer w pcid).views.eraseIdx i,
            dom := (getContainer w pcid).dom.erase v }) v none) pcid
        { getContainer w pcid with
            views := (getContainer w pcid).views.eraseIdx i,
            dom := (getContainer w pcid).dom.erase v,
            viewRefs := (getContainer w pcid).views.erase v }, some v) := by
    rw [refsRemove, hga]
    by_cases hbr : (getContainer w pcid).views.length ≤ i + 1
    · rw [if_pos (by simpa [hrefs] using hbr)]
      have hlast : (getContainer w pcid).viewRefs.getLast? = some v := by
        rw [hrefs]
        exact getLast?_of_get?_last _ _ _ hget hbr
      simp only [hlast]
      rw [show (getContainer w pcid).viewRefs.dropLast =
          (getContainer w pcid).views.erase v from by
        have hlen : i + 1 = (getContainer w pcid).views.length := by omega
        rw [hrefs, List.dropLast_eq_eraseIdx hlen, herase]]
    · rw [if_neg (by simpa [hrefs] using hbr)]
      rw [show (getContainer w pcid).viewRefs.eraseIdx i =
          (getContainer w pcid).views.erase v from by rw [hrefs, herase]]
      rw [show (getContainer w pcid).viewRefs.get? i = some v from by rw [hrefs, hget]]
  refine ⟨setContainer (setParent (setContainer w pcid
      { getContainer w pcid with
          views := (getContainer w pcid).views.eraseIdx i,
          dom := (getContainer w pcid).dom.erase v }) v none) pcid
      { getContainer w pcid with
          views := (getContainer w pcid).views.eraseIdx i,
          dom := (getContainer w pcid).dom.erase v,
          viewRefs := (getContainer w pcid).views.erase v }, ?_, ?_, ?_, ?_⟩
  · rw [vcrDetach]
    rw [hadj]
    simp only [htn, hdet, hrr, Option.isSome_some, if_pos]
  · rw [getContainer_setContainer_self _ _ _ (by rw [hlen_wa]; exact hpc)]
    rw [herase, hdom]
  · intro c hc
    rw [getContainer_setContainer_ne _ _ _ _ (fun he => hc he.symm),
      getContainer_setParent,
      getContainer_setContainer_ne _ _ _ _ (fun he => hc he.symm)]
  · rw [length_setContainer, hlen_wa]

theorem adjustIndex_zero_ok_toNat_le (len : Nat) (index : Option Int) (a : Int)
    (h : adjustIndex len index 0 = Except.ok a) : a.toNat ≤ len := by
  cases index with
  | none =>
      simp only [adjustIndex] at h
      have := Except.ok.inj h
      omega
  | some i =>
      simp only [adjustIndex, ngDevMode, if_true] at h
      split_ifs at h with h1 h2
      have := Except.ok.inj h
      omega

theorem vcrIndexOf_eq_natCast (w : World) (cid v i : Nat)
    (hfi : (getContainer w cid).viewRefs.findIdx? (fun x => x == v) = some i) :
    vcrIndexOf w cid v = (i : Int) := by
  simp [vcrIndexOf, hfi]

theorem vcrIndexOf_eq_neg_one (w : World) (cid v : Nat)
    (hnm : v ∉ (getContainer w cid).viewRefs) : vcrIndexOf w cid v = -1 := by
  simp [vcrIndexOf, findIdx?_beq_none_of_not_mem _ _ hnm]

theorem insertView_getContainer_self (w : World) (v cid aidx : Nat)
    (h : cid < w.containers.length) :
    getContainer (insertView w v cid aidx) cid =
      { getContainer w cid with
          views := (getContainer w cid).views.insertIdx aidx v } := by
  rw [insertView, getContainer_setParent, getContainer_setContainer_self _ _ _ h]

theorem insertView_getContainer_ne (w : World) (v cid aidx c : Nat) (h : c ≠ cid) :
    getContainer (insertView w v cid aidx) c = getContainer w c := by
  rw [insertView, getContainer_setParent,
    getContainer_setContainer_ne _ _ _ _ (fun he => h he.symm)]

theorem insertView_length (w : World) (v cid aidx : Nat) :
    (insertView w v cid aidx).containers.length = w.containers.length := by
  rw [insertView, length_setParent, length_setContainer]

theorem addViewToContainer_getContainer_self (w : World) (v cid aidx : Nat)
    (h : cid < w.containers.length) :
    getContainer (addViewToContainer w v cid aidx) cid =
      { getContainer w cid with
          dom := (getContainer w cid).dom.insertIdx aidx v } := by
  rw [addViewToContainer, getContainer_setContainer_self _ _ _ h]

theorem addViewToContainer_getContainer_ne (w : World) (v cid aidx c : Nat)
    (h : c ≠ cid) :
    getContainer (addViewToContainer w v cid aidx) c = getContainer w c := by
  rw [addViewToContainer, getContainer_setContainer_ne _ _ _ _ (fun he => h he.symm)]

theorem addViewToContainer_length (w : World) (v cid aidx : Nat) :
    (addViewToContainer w v cid aidx).containers.length = w.containers.length := by
  rw [addViewToContainer, length_setContainer]

theorem refsAdd_getContainer_self (w : World) (cid aidx v : Nat)
    (h : cid < w.containers.length) :
    getContainer (refsAdd w cid aidx v) cid =
      { getContainer w cid with
          viewRefs := (getContainer w cid).viewRefs.insertIdx aidx v } := by
  rw [refsAdd, getContainer_setContainer_self _ _ _ h]

theorem refsAdd_getContainer_ne (w : World) (cid aidx v c : Nat) (h : c ≠ cid) :
    getContainer (refsAdd w cid aidx v) c = getContainer w c := by
  rw [refsAdd, getContainer_setContainer_ne _ _ _ _ (fun he => h he.symm)]

theorem refsAdd_length (w : World) (cid aidx v : Nat) :
    (refsAdd w cid aidx v).containers.length = w.containers.length := by
  rw [refsAdd, length_setContainer]

theorem vcrInsertTail_spec (w1 : World) (cid v : Nat) (index : Option Int)
    (pre : List Ev) (w' : World) (evs : List Ev)
    (hc1 : cid < w1.containers.length)
    (hok : vcrInsertTail w1 cid v index pre = Except.ok (w', evs)) :
    ∃ aidx : Nat,
      aidx ≤ (getContainer w1 cid).views.length ∧
      (getContainer w' cid).views = (getContainer w1 cid).views.insertIdx aidx v ∧
      (getContainer w' cid).viewRefs =
        (getContainer w1 cid).viewRefs.insertIdx aidx v ∧
      (getContainer w' cid).dom =
        (if (getContainer w1 cid).hasParentRNode = true then
          (getContainer w1 cid).dom.insertIdx aidx v
        else (getContainer w1 cid).dom) ∧
      (getContainer w' cid).hasParentRNode = (getContainer w1 cid).hasParentRNode ∧
      (∀ c, c ≠ cid → getContainer w' c = getContainer w1 c) ∧
      w'.containers.length = w1.containers.length ∧
      evs = pre ++ [Ev.insertViewEv v cid aidx] ++
        (if (getContainer w1 cid).hasParentRNode = true then
          [Ev.addViewToContainerEv v cid aidx] else []) ++
        [Ev.refsAddEv v cid aidx] := by
  cases hadj : adjustIndex (vcrLength w1 cid) index 0 with
  | error e =>
      simp only [vcrInsertTail, hadj] at hok
      cases hok
  | ok a =>
      simp only [vcrInsertTail, hadj] at hok
      have haidx := adjustIndex_zero_ok_toNat_le (vcrLength w1 cid) index a hadj
      have hc2 : cid < (insertView w1 v cid a.toNat).containers.length := by
        rw [insertView_length]; exact hc1
      have h2 := insertView_getContainer_self w1 v cid a.toNat hc1
      have hw2rn : (getContainer (insertView w1 v cid a.toNat) cid).hasParentRNode =
          (getContainer w1 cid).hasParentRNode := by rw [h2]
      by_cases hrn : (getContainer w1 cid).hasParentRNode = true
      · rw [hw2rn, if_pos hrn] at hok
        have hp := Except.ok.inj hok
        rw [Prod.mk.injEq] at hp
        obtain ⟨hW, hE⟩ := hp
        have hc3 : cid <
            (addViewToContainer (insertView w1 v cid a.toNat) v cid
              a.toNat).containers.length := by
          rw [addViewToContainer_length]; exact hc2
        have h3 := addViewToContainer_getContainer_self
          (insertView w1 v cid a.toNat) v cid a.toNat hc2
        have h4 := refsAdd_getContainer_self
          (addViewToContainer (insertView w1 v cid a.toNat) v cid a.toNat)
          cid a.toNat v hc3
        have hfin : getContainer w' cid =
            { views := (getContainer w1 cid).views.insertIdx a.toNat v,
              viewRefs := (getContainer w1 cid).viewRefs.insertIdx a.toNat v,
              dom := (getContainer w1 cid).dom.insertIdx a.toNat v,
              hasParentRNode := (getContainer w1 cid).hasParentRNode } := by
          rw [← hW, h4, h3, h2]
        refine ⟨a.toNat, haidx, ?_, ?_, ?_, ?_, ?_, ?_, ?_⟩
        · rw [hfin]
        · rw [hfin]
        · rw [hfin, if_pos hrn]
        · rw [hfin]
        · intro c hcne
          rw [← hW, refsAdd_getContainer_ne _ _ _ _ _ hcne,
            addViewToContainer_getContainer_ne _ _ _ _ _ hcne,
            insertView_getContainer_ne _ _ _ _ _ hcne]
        · rw [← hW, refsAdd_length, addViewToContainer_length, insertView_length]
        · rw [← hE, if_pos hrn]
      · rw [hw2rn, if_neg hrn] at hok
        have hp := Except.ok.inj hok
        rw [Prod.mk.injEq] at hp
        obtain ⟨hW, hE⟩ := hp
        have h4 := refsAdd_getContainer_self (insertView w1 v cid a.toNat)
          cid a.toNat v hc2
        have hfin : getContainer w' cid =
            { views := (getContainer w1 cid).views.insertIdx a.toNat v,
              viewRefs := (getContainer w1 cid).viewRefs.insertIdx a.toNat v,
              dom := (getContainer w1 cid).dom,
              hasParentRNode := (getContainer w1 cid).hasParentRNode } := by
          rw [← hW, h4, h2]
        refine ⟨a.toNat, haidx, ?_, ?_, ?_, ?_, ?_, ?_, ?_⟩
        · rw [hfin]
        · rw [hfin]
        · rw [hfin, if_neg hrn]
        · rw [hfin]
        · intro c hcne
          rw [← hW, refsAdd_getContainer_ne _ _ _ _ _ hcne,
            insertView_getContainer_ne _ _ _ _ _ hcne]
        · rw [← hW, refsAdd_length, insertView_length]
        · rw [← hE, if_neg hrn]

theorem vcrInsert_master (w : World) (cid v : Nat) (index : Option Int)
    (w' : World) (evs : List Ev) (hwf : WF w) (hc : cid < w.containers.length)
    (hok : vcrInsert w cid v index = Except.ok (w', evs)) :
    ∃ (w1 : World) (pre : List Ev),
      ((parentOf w v = none ∧ w1 = w ∧ pre = []) ∨
        (∃ pcid i, parentOf w v = some pcid ∧
          pre = [Ev.detachViewEv v pcid i, Ev.refsRemoveEv pcid i] ∧
          getContainer w1 pcid =
            { views := (getContainer w pcid).views.erase v,
              viewRefs := (getContainer w pcid).views.erase v,
              dom := (getContainer w pcid).views.erase v,
              hasParentRNode := (getContainer w pcid).hasParentRNode } ∧
          (∀ c, c ≠ pcid → getContainer w1 c = getContainer w c) ∧
          w1.containers.length = w.containers.length)) ∧
      vcrInsertTail w1 cid v index pre = Except.ok (w', evs) := by
  rw [vcrInsert] at hok
  cases hdest : destroyedOf w v with
  | true => rw [hdest] at hok; simp [ngDevMode] at hok
  | false =>
      rw [hdest] at hok
      simp only [ngDevMode, Bool.and_false, Bool.false_eq_true, if_false] at hok
      cases hp : parentOf w v with
      | none =>
          simp only [hp] at hok
          exact ⟨w, [], Or.inl ⟨rfl, rfl, rfl⟩, hok⟩
      | some pcid =>
          simp only [hp] at hok
          have hvmem : v ∈ (getContainer w pcid).views := hwf.parentMem v pcid hp
          have hpc : pcid < w.containers.length := mem_views_lt_length w pcid v hvmem
          by_cases hpeq : pcid = cid
          · subst hpeq
            have hvrefs : v ∈ (getContainer w pcid).viewRefs := by
              rw [hwf.refsEq]; exact hvmem
            obtain ⟨i, hfi⟩ := findIdx?_beq_of_mem _ _ hvrefs
            obtain ⟨w1, hdet, hchar, hoth, hlen⟩ :=
              vcrDetach_found_spec w pcid v i hwf hpc hfi
            have hne : vcrIndexOf w pcid v ≠ -1 := by
              rw [vcrIndexOf_eq_natCast w pcid v i hfi]; omega
            rw [if_pos hne, vcrIndexOf_eq_natCast w pcid v i hfi] at hok
            simp only [hdet] at hok
            exact ⟨w1, _, Or.inr ⟨pcid, i, rfl, rfl, hchar, hoth, hlen⟩, hok⟩
          · have hnm : v ∉ (getContainer w cid).viewRefs := by
              rw [hwf.refsEq]
              intro hm
              exact hpeq (Option.some.inj ((hwf.memParent cid v hm).symm.trans hp)).symm
            have hiz : vcrIndexOf w cid v = -1 := vcrIndexOf_eq_neg_one w cid v hnm
            have hvrefs : v ∈ (getContainer w pcid).viewRefs := by
              rw [hwf.refsEq]; exact hvmem
            obtain ⟨i, hfi⟩ := findIdx?_beq_of_mem _ _ hvrefs
            obtain ⟨w1, hdet, hchar, hoth, hlen⟩ :=
              vcrDetach_found_spec w pcid v i hwf hpc hfi
            rw [hiz, if_neg (by simp), vcrIndexOf_eq_natCast w pcid v i hfi] at hok
            simp only [hdet] at hok
            exact ⟨w1, _, Or.inr ⟨pcid, i, rfl, rfl, hchar, hoth, hlen⟩, hok⟩

theorem WF_of_checks (w : World)
    (h1 : ∀ cid < w.containers.length,
      (getContainer w cid).viewRefs = (getContainer w cid).views ∧
      (getContainer w cid).dom = (getContainer w cid).views ∧
      (getContainer w cid).views.Nodup ∧
      (∀ v ∈ (getContainer w cid).views, parentOf w v = some cid))
    (h2 : ∀ v < w.viewParent.length,
      ∀ cid ∈ w.viewParent.getD v none, v ∈ (getContainer w cid).views) :
    WF w := by
  have hdef : ∀ cid, w.containers.length ≤ cid → getContainer w cid = default :=
    getContainer_out_of_range w
  constructor
  · intro cid
    by_cases h : cid < w.containers.length
    · exact (h1 cid h).1
    · rw [hdef cid (le_of_not_lt h)]
      rfl
  · intro cid
    by_cases h : cid < w.containers.length
    · exact (h1 cid h).2.1
    · rw [hdef cid (le_of_not_lt h)]
      rfl
  · intro cid
    by_cases h : cid < w.containers.length
    · exact (h1 cid h).2.2.1
    · rw [hdef cid (le_of_not_lt h)]
      exact List.nodup_nil
  · intro cid v hv
    by_cases h : cid < w.containers.length
    · exact (h1 cid h).2.2.2 v hv
    · rw [hdef cid (le_of_not_lt h)] at hv
      exact absurd hv (List.not_mem_nil v)
  · intro v cid hp
    by_cases hv : v < w.viewParent.length
    · exact h2 v hv cid (Option.mem_def.mpr hp)
    · have hnone : w.viewParent.get? v = none :=
        List.get?_eq_none.mpr (le_of_not_lt hv)
      simp only [parentOf, List.getD, hnone] at hp
      cases hp

/-- C2: inserting a view that is currently attached to some container (found
through its `PARENT` pointer) first logically detaches it from that container
and only then attaches it at the target position, so that after `insert` the
view is a member of exactly one container's list. -/
theorem c2_insert_detaches_previous_container (w : World) (cid pcid v : Nat)
    (index : Option Int) (w' : World) (evs : List Ev)
    (hwf : WF w) (hc : cid < w.containers.length)
    (hatt : parentOf w v = some pcid)
    (hok : vcrInsert w cid v index = Except.ok (w', evs)) :
    v ∈ (getContainer w' cid).views ∧
    (∀ c, v ∈ (getContainer w' c).views → c = cid) ∧
    occursBefore (isDetachOf v) (isInsertOf v) evs = true := by
  obtain ⟨w1, pre, hdisj, htail⟩ := vcrInsert_master w cid v index w' evs hwf hc hok
  rcases hdisj with ⟨hnone, _, _⟩ | ⟨pcid', i, hp', hpre, hchar, hoth, hlen⟩
  · rw [hatt] at hnone
    cases hnone
  · obtain ⟨aidx, hbound, hviews, hrefsI, hdomI, hrnI, hothers, hlenT, hevs⟩ :=
      vcrInsertTail_spec w1 cid v index pre w' evs (by rw [hlen]; exact hc) htail
    refine ⟨?_, ?_, ?_⟩
    · rw [hviews]
      exact (List.mem_insertIdx hbound).mpr (Or.inl rfl)
    · intro c hmc
      by_contra hcc
      rw [hothers c hcc] at hmc
      by_cases hcp : c = pcid'
      · subst hcp
        rw [hchar] at hmc
        exact List.Nodup.not_mem_erase (hwf.nodup c) hmc
      · rw [hoth c hcp] at hmc
        exact hcp (Option.some.inj ((hwf.memParent c v hmc).symm.trans hp'))
    · rw [hevs, hpre]
      by_cases hrn : (getContainer w1 cid).hasParentRNode = true
      · rw [if_pos hrn]
        simp [occursBefore, isDetachOf, isInsertOf, List.findIdx?_cons]
      · rw [if_neg hrn]
        simp [occursBefore, isDetachOf, isInsertOf, List.findIdx?_cons]

/-- Witness for C2: view `5` attached to container 1 is inserted into
container 0. -/
theorem c2_insert_detaches_previous_container_witness :
    ∃ w' evs, vcrInsert c2World 0 5 none = Except.ok (w', evs) ∧
      (5 ∈ (getContainer w' 0).views ∧
      (∀ c, 5 ∈ (getContainer w' c).views → c = 0) ∧
      occursBefore (isDetachOf 5) (isInsertOf 5) evs = true) :=
  ⟨_, _, rfl, c2_insert_detaches_previous_container c2World 0 1 5 none _ _
    (WF_of_checks c2World (by decide) (by decide)) (by decide) (by decide) rfl⟩

/-- C3: `remove` performs the logical detachment (removal from the
container's view list and from `VIEW_REFS`, updating the container's length)
and the physical DOM detachment before any destruction hook of the removed
view runs: when the destruction event for a view appears in the trace, it is
the last event, after `detachView` and the `VIEW_REFS` splice; the length a
reentrant destroy hook observes is the already-updated length (one less than
before the call), and the removed view is no longer in the container's lists
at that point. -/
theorem c3_remove_updates_bookkeeping_before_destroy
    (w : World) (cid : Nat) (index : Option Int) (w' : World) (evs : List Ev)
    (hwf : WF w) (hc : cid < w.containers.length)
    (hok : vcrRemove w cid index = Except.ok (w', evs)) :
    ∀ v L, Ev.destroyEv v cid L ∈ evs →
      ∃ aidx, evs = [Ev.detachViewEv v cid aidx, Ev.refsRemoveEv cid aidx,
          Ev.destroyEv v cid L] ∧
        L = vcrLength w' cid ∧
        vcrLength w cid = vcrLength w' cid + 1 ∧
        v ∉ (getContainer w' cid).views ∧
        v ∉ (getContainer w' cid).viewRefs := by
  cases hadj : adjustIndex (vcrLength w cid) index (-1) with
  | error e =>
      simp only [vcrRemove, hadj] at hok
      cases hok
  | ok a =>
      simp only [vcrRemove, hadj] at hok
      cases hget : (getContainer w cid).views.get? a.toNat with
      | none =>
          simp only [detachView, hget] at hok
          have hp := Except.ok.inj hok
          rw [Prod.mk.injEq] at hp
          intro v L hmem
          rw [← hp.2] at hmem
          cases hmem
      | some v0 =>
          have hrefs := hwf.refsEq cid
          have hdom := hwf.domEq cid
          have hnd := hwf.nodup cid
          have hvm : v0 ∈ (getContainer w cid).views := List.get?_mem hget
          have hlt : a.toNat < (getContainer w cid).views.length := by
            by_contra hcon
            rw [List.get?_eq_none.mpr (Nat.le_of_not_lt hcon)] at hget
            cases hget
          have herase := eraseIdx_eq_erase_of_nodup _ _ _ hnd hget
          simp only [detachView, hget] at hok
          have hga : getContainer (setParent (setContainer w cid
              { getContainer w cid with
                  views := (getContainer w cid).views.eraseIdx a.toNat,
                  dom := (getContainer w cid).dom.erase v0 }) v0 none) cid =
              { getContainer w cid with
                  views := (getContainer w cid).views.eraseIdx a.toNat,
                  dom := (getContainer w cid).dom.erase v0 } := by
            rw [getContainer_setParent, getContainer_setContainer_self _ _ _ hc]
          have hlenwa : (setParent (setContainer w cid
              { getContainer w cid with
                  views := (getContainer w cid).views.eraseIdx a.toNat,
                  dom := (getContainer w cid).dom.erase v0 }) v0
              none).containers.length = w.containers.length := by
            rw [length_setParent, length_setContainer]
          have hrr : refsRemove (setParent (setContainer w cid
              { getContainer w cid with
                  views := (getContainer w cid).views.eraseIdx a.toNat,
                  dom := (getContainer w cid).dom.erase v0 }) v0 none) cid a.toNat =
              (setContainer (setParent (setContainer w cid
                { getContainer w cid with
                    views := (getContainer w cid).views.eraseIdx a.toNat,
                    dom := (getContainer w cid).dom.erase v0 }) v0 none) cid
                { getContainer w cid with
                    views := (getContainer w cid).views.eraseIdx a.toNat,
                    dom := (getContainer w cid).dom.erase v0,
                    viewRefs := (getContainer w cid).views.erase v0 }, some v0) := by
            rw [refsRemove, hga]
            by_cases hbr : (getContainer w cid).views.length ≤ a.toNat + 1
            · rw [if_pos (by simpa [hrefs] using hbr)]
              have hlast : (getContainer w cid).viewRefs.getLast? = some v0 := by
                rw [hrefs]
                exact getLast?_of_get?_last _ _ _ hget hbr
              simp only [hlast]
              rw [show (getContainer w cid).viewRefs.dropLast =
                  (getContainer w cid).views.erase v0 from by
                have hlen : a.toNat + 1 = (getContainer w cid).views.length := by omega
                rw [hrefs, List.dropLast_eq_eraseIdx hlen, herase]]
            · rw [if_neg (by simpa [hrefs] using hbr)]
              rw [show (getContainer w cid).viewRefs.eraseIdx a.toNat =
                  (getContainer w cid).views.erase v0 from by rw [hrefs, herase]]
              rw [show (getContainer w cid).viewRefs.get? a.toNat = some v0 from by
                rw [hrefs, hget]]
          simp only [hrr] at hok
          have hp := Except.ok.inj hok
          rw [Prod.mk.injEq] at hp
          obtain ⟨hW, hE⟩ := hp
          have hgf : getContainer w' cid =
              { getContainer w cid with
                  views := (getContainer w cid).views.eraseIdx a.toNat,
                  dom := (getContainer w cid).dom.erase v0,
                  viewRefs := (getContainer w cid).views.erase v0 } := by
            rw [← hW, destroyLView, getContainer_setDestroyed,
              getContainer_setContainer_self _ _ _ (by rw [hlenwa]; exact hc)]
          have hlerase : ((getContainer w cid).views.erase v0).length =
              (getContainer w cid).views.length - 1 :=
            List.length_erase_of_mem hvm
          have hlw' : vcrLength w' cid = (getContainer w cid).views.length - 1 := by
            show (getContainer w' cid).views.length = _
            rw [hgf]
            show ((getContainer w cid).views.eraseIdx a.toNat).length = _
            rw [herase, hlerase]
          have hLval : vcrLength (setContainer (setParent (setContainer w cid
              { getContainer w cid with
                  views := (getContainer w cid).views.eraseIdx a.toNat,
                  dom := (getContainer w cid).dom.erase v0 }) v0 none) cid
              { getContainer w cid with
                  views := (getContainer w cid).views.eraseIdx a.toNat,
                  dom := (getContainer w cid).dom.erase v0,
                  viewRefs := (getContainer w cid).views.erase v0 }) cid =
              (getContainer w cid).views.length - 1 := by
            show (getContainer _ cid).views.length = _
            rw [getContainer_setContainer_self _ _ _ (by rw [hlenwa]; exact hc)]
            show ((getContainer w cid).views.eraseIdx a.toNat).length = _
            rw [herase, hlerase]
          intro v L hmem
          rw [← hE] at hmem
          simp only [List.mem_cons, List.not_mem_nil, or_false] at hmem
          rcases hmem with h | h | h
          · exact Ev.noConfusion h
          · exact Ev.noConfusion h
          · injection h with h1 h2 h3
            subst h1
            refine ⟨a.toNat, ?_, ?_, ?_, ?_, ?_⟩
            · rw [← hE, h3]
            · rw [h3, hLval, hlw']
            · rw [hlw']
              show (getContainer w cid).views.length = _
              omega
            · rw [hgf]
              show v ∉ (getContainer w cid).views.eraseIdx a.toNat
              rw [herase]
              exact List.Nodup.not_mem_erase hnd
            · rw [hgf]
              show v ∉ (getContainer w cid).views.erase v
              exact List.Nodup.not_mem_erase hnd

/-- Witness for C3: removing the last view (`8`) of a two-view container; the
destroy hook observes length `1`. -/
theorem c3_remove_updates_bookkeeping_before_destroy_witness :
    ∃ w' evs, vcrRemove c3World 0 none = Except.ok (w', evs) ∧
      (∀ v L, Ev.destroyEv v 0 L ∈ evs →
        ∃ aidx, evs = [Ev.detachViewEv v 0 aidx, Ev.refsRemoveEv 0 aidx,
            Ev.destroyEv v 0 L] ∧
          L = vcrLength w' 0 ∧
          vcrLength c3World 0 = vcrLength w' 0 + 1 ∧
          v ∉ (getContainer w' 0).views ∧
          v ∉ (getContainer w' 0).viewRefs) :=
  ⟨_, _, rfl, c3_remove_updates_bookkeeping_before_destroy c3World 0 none _ _
    (WF_of_checks c3World (by decide) (by decide)) (by decide) rfl⟩

/-- C4 (amended): within a single `insert` call on a rendered container, the
logical list mutation (`insertView`) and the physical DOM mutation
(`addViewToContainer`) both happen, in that order — logical first, physical
second, followed by the `VIEW_REFS` splice — and on completion the logical
view lists and the physical DOM sibling orders agree in every container. -/
theorem c4_insert_logical_before_physical_in_sync
    (w : World) (cid v : Nat) (index : Option Int) (w' : World) (evs : List Ev)
    (hwf : WF w) (hc : cid < w.containers.length)
    (hrn : (getContainer w cid).hasParentRNode = true)
    (hok : vcrInsert w cid v index = Except.ok (w', evs)) :
    (∃ pre aidx, evs = pre ++ [Ev.insertViewEv v cid aidx,
        Ev.addViewToContainerEv v cid aidx, Ev.refsAddEv v cid aidx] ∧
      (∀ e ∈ pre, isLogicalInsertEv e = false ∧ isPhysicalAddEv e = false)) ∧
    occursBefore isLogicalInsertEv isPhysicalAddEv evs = true ∧
    (∀ c, (getContainer w' c).dom = (getContainer w' c).views) := by
  obtain ⟨w1, pre, hdisj, htail⟩ := vcrInsert_master w cid v index w' evs hwf hc hok
  have hlen1 : w1.containers.length = w.containers.length := by
    rcases hdisj with ⟨_, rfl, _⟩ | ⟨_, _, _, _, _, _, h⟩
    · rfl
    · exact h
  have hrn1 : (getContainer w1 cid).hasParentRNode = true := by
    rcases hdisj with ⟨_, rfl, _⟩ | ⟨pcid, i, hp, hpre, hchar, hoth, hlen⟩
    · exact hrn
    · by_cases hcp : cid = pcid
      · subst hcp
        rw [hchar]
        exact hrn
      · rw [hoth cid hcp]
        exact hrn
  have hsync1 : ∀ c, (getContainer w1 c).dom = (getContainer w1 c).views := by
    rcases hdisj with ⟨_, rfl, _⟩ | ⟨pcid, i, hp, hpre, hchar, hoth, hlen⟩
    · exact hwf.domEq
    · intro c
      by_cases hcp : c = pcid
      · subst hcp
        rw [hchar]
      · rw [hoth c hcp]
        exact hwf.domEq c
  have hpre_class : pre = [] ∨
      ∃ pcid i, pre = [Ev.detachViewEv v pcid i, Ev.refsRemoveEv pcid i] := by
    rcases hdisj with ⟨_, _, rfl⟩ | ⟨pcid, i, _, rfl, _⟩
    · exact Or.inl rfl
    · exact Or.inr ⟨pcid, i, rfl⟩
  obtain ⟨aidx, hbound, hviews, hrefsI, hdomI, hrnI, hothers, hlenT, hevs⟩ :=
    vcrInsertTail_spec w1 cid v index pre w' evs (by rw [hlen1]; exact hc) htail
  refine ⟨⟨pre, aidx, ?_, ?_⟩, ?_, ?_⟩
  · rw [hevs, if_pos hrn1]
    simp
  · intro e he
    rcases hpre_class with rfl | ⟨pcid, i, rfl⟩
    · cases he
    · simp only [List.mem_cons, List.not_mem_nil, or_false] at he
      rcases he with rfl | rfl
      · exact ⟨rfl, rfl⟩
      · exact ⟨rfl, rfl⟩
  · rw [hevs, if_pos hrn1]
    rcases hpre_class with rfl | ⟨pcid, i, rfl⟩ <;>
      simp [occursBefore, isLogicalInsertEv, isPhysicalAddEv, List.findIdx?_cons]
  · intro c
    by_cases hcc : c = cid
    · subst hcc
      rw [hviews, hdomI, if_pos hrn1, hsync1 c]
    · rw [hothers c hcc]
      exact hsync1 c

/-- Witness for C4 (amended): the same concrete insert call as the
counterexample. -/
theorem c4_insert_logical_before_physical_in_sync_witness :
    ∃ w' evs, vcrInsert c4World 0 5 none = Except.ok (w', evs) ∧
      ((∃ pre aidx, evs = pre ++ [Ev.insertViewEv 5 0 aidx,
          Ev.addViewToContainerEv 5 0 aidx, Ev.refsAddEv 5 0 aidx] ∧
        (∀ e ∈ pre, isLogicalInsertEv e = false ∧ isPhysicalAddEv e = false)) ∧
      occursBefore isLogicalInsertEv isPhysicalAddEv evs = true ∧
      (∀ c, (getContainer w' c).dom = (getContainer w' c).views)) :=
  ⟨_, _, rfl, c4_insert_logical_before_physical_in_sync c4World 0 5 none _ _
    (WF_of_checks c4World (by decide) (by decide)) (by decide) (by decide) rfl⟩

/-- C4 counterexample: on a concrete insert call (empty rendered container,
fresh view `5`, omitted index) the trace is logical `insertView`, then
physical `addViewToContainer`, then the `VIEW_REFS` splice — the physical DOM
mutation does not precede the logical list mutation as the claim states; it
follows it. -/
theorem c4_physical_first_counterexample :
    insertTrace c4World 0 5 none =
      [Ev.insertViewEv 5 0 0, Ev.addViewToContainerEv 5 0 0, Ev.refsAddEv 5 0 0] ∧
    occursBefore isPhysicalAddEv isLogicalInsertEv (insertTrace c4World 0 5 none) =
      false ∧
    occursBefore isLogicalInsertEv isPhysicalAddEv (insertTrace c4World 0 5 none) =
      true := by
  refine ⟨by decide, by decide, by decide⟩

theorem appendRemoteScopingStatements_mono (stmts : List Statement)
    (decls : List Reference) (grs : Nat → Option RemoteScope) (prot : Bool)
    (s : Statement) (hs : s ∈ stmts) :
    s ∈ appendRemoteScopingStatements stmts decls grs prot := by
  induction decls generalizing stmts with
  | nil => exact hs
  | cons d rest ih =>
      cases h : grs d.id <;> simp only [appendRemoteScopingStatements, h]
      · exact ih _ hs
      · exact ih _ (List.mem_append_left _ hs)

theorem appendRemoteScopingStatements_mem (stmts : List Statement)
    (decls : List Reference) (grs : Nat → Option RemoteScope) (prot : Bool)
    (d : Reference) (rs : RemoteScope) (hd : d ∈ decls) (hrs : grs d.id = some rs) :
    Statement.setComponentScope d.id (remoteScopeArgExpr prot rs.directives)
        (remoteScopeArgExpr prot rs.pipes) ∈
      appendRemoteScopingStatements stmts decls grs prot := by
  induction decls generalizing stmts with
  | nil => cases hd
  | cons d0 rest ih =>
      rcases List.mem_cons.mp hd with h | h
      · subst h
        simp only [appendRemoteScopingStatements, hrs]
        exact appendRemoteScopingStatements_mono _ _ _ _ _ (by simp)
      · cases hgr : grs d0.id <;> simp only [appendRemoteScopingStatements, hgr]
        · exact ih _ h
        · exact ih _ h

/-- C8: in full compilation mode, every NgModule declaration with a remote
scope is patched through a side-effecting `setComponentScope` statement in the
module's compiled output, and a directive/pipe array argument is
closure-wrapped exactly when the module's declarations or imports contain a
synthetic (forward-referenced) reference and that array is non-empty. -/
theorem c8_remote_scope_patch_and_closure_wrapping
    (ngModuleDefStatements : List Statement) (metadata : Option Statement)
    (declarations importRefs : List Reference)
    (getRemoteScope : Nat → Option RemoteScope) (d : Reference) (rs : RemoteScope)
    (hd : d ∈ declarations) (hrs : getRemoteScope d.id = some rs) :
    Statement.setComponentScope d.id
        (remoteScopeArgExpr
          (remoteScopesMayRequireCycleProtection declarations importRefs) rs.directives)
        (remoteScopeArgExpr
          (remoteScopesMayRequireCycleProtection declarations importRefs) rs.pipes) ∈
      compileFullStatements ngModuleDefStatements metadata declarations importRefs
        getRemoteScope ∧
    (∀ (protection : Bool) (refs : List Nat),
      (remoteScopeArgExpr protection refs).isClosure = true ↔
        (protection = true ∧ refs ≠ [])) ∧
    remoteScopesMayRequireCycleProtection declarations importRefs =
      (declarations.any isSyntheticReference || importRefs.any isSyntheticReference) := by
  refine ⟨?_, ?_, rfl⟩
  · exact appendRemoteScopingStatements_mem _ _ _ _ _ _ hd hrs
  · intro protection refs
    cases protection <;> cases refs <;>
      simp [remoteScopeArgExpr, ScopeExpr.isClosure]

/-- Witness for C8: a module with a synthetic declaration reference and a
remotely scoped component `2` whose remote scope has one directive and no
pipes: the emitted directive array is closure-wrapped, the pipe array is not. -/
theorem c8_remote_scope_patch_and_closure_wrapping_witness :
    (({ id := 2, synthetic := false } : Reference) ∈
      [({ id := 1, synthetic := true } : Reference), { id := 2, synthetic := false }]) ∧
    ((fun n => if n = 2 then some ({ directives := [10], pipes := [] } : RemoteScope)
        else none) ({ id := 2, synthetic := false } : Reference).id =
      some { directives := [10], pipes := [] }) ∧
    (Statement.setComponentScope 2
        (remoteScopeArgExpr
          (remoteScopesMayRequireCycleProtection
            [{ id := 1, synthetic := true }, { id := 2, synthetic := false }] [])
          ([10] : List Nat))
        (remoteScopeArgExpr
          (remoteScopesMayRequireCycleProtection
            [{ id := 1, synthetic := true }, { id := 2, synthetic := false }] [])
          ([] : List Nat)) ∈
      compileFullStatements [Statement.moduleDefStmt 0] none
        [{ id := 1, synthetic := true }, { id := 2, synthetic := false }] []
        (fun n => if n = 2 then some { directives := [10], pipes := [] } else none)) ∧
    remoteScopeArgExpr
        (remoteScopesMayRequireCycleProtection
          [{ id := 1, synthetic := true }, { id := 2, synthetic := false }] [])
        ([10] : List Nat) = ScopeExpr.closureWrapped [10] ∧
    remoteScopeArgExpr
        (remoteScopesMayRequireCycleProtection
          [{ id := 1, synthetic := true }, { id := 2, synthetic := false }] [])
        ([] : List Nat) = ScopeExpr.literalArray [] := by
  have h := c8_remote_scope_patch_and_closure_wrapping [Statement.moduleDefStmt 0] none
    [{ id := 1, synthetic := true }, { id := 2, synthetic := false }] []
    (fun n => if n = 2 then some { directives := [10], pipes := [] } else none)
    { id := 2, synthetic := false } { directives := [10], pipes := [] }
    (by decide) (by simp)
  exact ⟨by decide, by simp, h.1, by decide, by decide⟩

end Ng
